import Mathlib

/-!
Verification of the marshaling and lifecycle layer of node-sql-wasm
(src/src/Statement.js, src/Database.js) against its specification.

The JavaScript source is shallowly embedded: host dynamic values become an
inductive `JSValue`, statement and database objects become structures whose
fields mirror the JS fields (`stmt`, `pos`, `allocatedmem`, `statements`),
and every method becomes a Lean function translated line by line from the
source, returning `Except String` where the JS method can throw.

The SQLite engine and the Emscripten runtime are external collaborators of
this repository (spec section 6 treats the native call boundary as a fixed,
already-correct C API).  Their primitives (`sqlite3_step`, the bind and
column accessors, `allocate`, `_free`, ...) are therefore modelled from
their documented interfaces; each such model carries a doc comment saying
what it models.  Host strings are modelled as their code-point sequences
(`List Nat`), standing in for the UTF-8 byte encoding performed by the
Emscripten runtime outside this repository (that encoding is injective with
an exact inverse, which is the only property the marshaling layer relies
on).
-/

namespace SqlWasm

/-- Host (JavaScript) dynamic values, as classified by `typeof` in the
source: `undefined`, `null`, booleans, numbers (IEEE doubles, modelled as
rationals), strings (code-point sequences), array-like byte buffers
(objects with a `length` property), and any other object (carrying only
its JS string description, used when it is interpolated into an error
message). -/
inductive JSValue where
  | vundef
  | vnull
  | vbool (b : Bool)
  | vnum (q : ℚ)
  | vstr (cps : List Nat)
  | vblob (bs : List Nat)
  | vobj (desc : String)
deriving Repr, DecidableEq

/-- JS string conversion (as applied by `"" + v` or `String(v)`), used only
where the source interpolates a value into an error message. -/
def jsDescribe : JSValue → String
  | .vundef => "undefined"
  | .vnull => "null"
  | .vbool b => if b then "true" else "false"
  | .vnum q => toString q
  | .vstr cps => String.mk (cps.map Char.ofNat)
  | .vblob bs => String.intercalate "," (bs.map toString)
  | .vobj desc => desc

/-! ### Constants extracted from sqlite3.h (out/sqlite3.h.js) -/

def SQLITE_OK : Nat := 0
def SQLITE_ROW : Nat := 100
def SQLITE_DONE : Nat := 101
def SQLITE_INTEGER : Nat := 1
def SQLITE_FLOAT : Nat := 2
def SQLITE3_TEXT : Nat := 3
def SQLITE_BLOB : Nat := 4
def SQLITE_NULL : Nat := 5
def SQLITE_RANGE : Nat := 25
def SQLITE_MISUSE : Nat := 21

/-! ### Model of the UDF trampoline (`wrapped_func` in Database.js)

`Database.create_function` wraps the host callable in `wrapped_func`,
which is installed as the engine's callback.  The trampoline decodes each
engine argument value, applies the host callable, and encodes the result
(or the thrown value) back into an engine result call.  Engine argument
values are modelled at value granularity (`ArgCell`), since
`extract_blob` copies blob bytes out of native memory before the host
callable ever sees them. -/

/-- Engine-side dynamic value handed to a UDF argument slot.  Models the
`sqlite3_value` object reachable through the documented
`sqlite3_value_type` / `_double` / `_text` / `_bytes` / `_blob`
accessors. -/
inductive ArgCell where
  | anull
  | aint (i : ℤ)
  | areal (q : ℚ)
  | atext (cps : List Nat)
  | ablob (bs : List Nat)
deriving Repr, DecidableEq

/-- Model of `sqlite3_value_type`: the engine's type tag of an argument. -/
def sqlite3_value_type : ArgCell → Nat
  | .anull => SQLITE_NULL
  | .aint _ => SQLITE_INTEGER
  | .areal _ => SQLITE_FLOAT
  | .atext _ => SQLITE3_TEXT
  | .ablob _ => SQLITE_BLOB

/-- Model of `sqlite3_value_double`: the numeric content of an integer or
float argument (the trampoline only calls it on those tags; the engine's
text-to-number coercion on other tags is not modelled and defaults to 0). -/
def sqlite3_value_double : ArgCell → ℚ
  | .aint i => (i : ℚ)
  | .areal q => q
  | _ => 0

/-- Model of `sqlite3_value_text` (through the cwrap string return): the
text content of a text argument. -/
def sqlite3_value_text : ArgCell → List Nat
  | .atext cps => cps
  | _ => []

/-- Model of `extract_blob` in `wrapped_func`: `sqlite3_value_bytes` bytes
copied out of `HEAP8` starting at `sqlite3_value_blob` into a fresh
`Uint8Array`. -/
def extract_blob : ArgCell → List Nat
  | .ablob bs => bs
  | _ => []

/-- Argument decoding in `wrapped_func`: the if/else chain on
`sqlite3_value_type` (integer or float to host number, text to host
string, blob to host byte buffer, anything else to host null). -/
def decodeArg (c : ArgCell) : JSValue :=
  let t := sqlite3_value_type c
  if t = SQLITE_INTEGER ∨ t = SQLITE_FLOAT then .vnum (sqlite3_value_double c)
  else if t = SQLITE3_TEXT then .vstr (sqlite3_value_text c)
  else if t = SQLITE_BLOB then .vblob (extract_blob c)
  else .vnull

/-- The engine result call issued by the trampoline: exactly one of
`sqlite3_result_int`, `_double`, `_text`, `_blob`, `_null`, `_error`. -/
inductive UdfResult where
  | rint (i : ℤ)
  | rdouble (q : ℚ)
  | rtext (cps : List Nat)
  | rblob (bs : List Nat)
  | rnull
  | rerror (msg : String)
deriving Repr, DecidableEq

/-- The `wrapped_func` trampoline from `Database.create_function`.  The
host callable is modelled as a function from the decoded arguments to
`Except JSValue JSValue` (a thrown JS value on the left).  The whole
try-block (invocation and result marshaling) is guarded by the catch that
issues `sqlite3_result_error` with the thrown value's description; the
blob branch's transient native buffer (allocated only to be freed right
after the result call) has no observable effect and is elided. -/
def wrapped_func (func : List JSValue → Except JSValue JSValue)
    (args : List ArgCell) : UdfResult :=
  match func (args.map decodeArg) with
  | .error e => .rerror (jsDescribe e)
  | .ok result =>
    match result with
    | .vbool b => .rint (if b then 1 else 0)
    | .vnum q => .rdouble q
    | .vstr cps => .rtext cps
    | .vnull => .rnull
    | .vblob bs => .rblob bs
    | .vobj desc =>
        .rerror ("Wrong API use : tried to return a value "
          ++ "of an unknown type (" ++ jsDescribe (.vobj desc) ++ ").")
    | .vundef => .rnull

/-! ### Model of the Emscripten heap and allocator

`Statement.bindString` and `Statement.bindBlob` copy host bytes into
native memory with `allocate(bytes, "i8", ALLOC_NORMAL)` and later free
them with `_free`.  The allocator is modelled at allocation granularity:
a bump allocator handing out fresh nonzero base addresses, with a store
mapping each base address to the written contents (the code only ever
reads inside a single live allocation starting at its base).  `live`
tracks the currently allocated bases and `freeErrors` counts frees of an
address that is not currently allocated (a double free or invalid free,
which in the real allocator corrupts the heap). -/

structure Heap where
  store : List (Nat × List Nat) := []
  live : List Nat := []
  nextAddr : Nat := 1
  freeErrors : Nat := 0
deriving Repr, DecidableEq

/-- Model of Emscripten `allocate(slab, "i8", ALLOC_NORMAL)`: copies the
values into a fresh native allocation and returns its address.  Cell
values are stored unchanged; reads through the signed `HEAP8` view apply
the byte truncation instead (see `Heap.readHeap8`). -/
def Heap.allocate (h : Heap) (l : List Nat) : Nat × Heap :=
  (h.nextAddr,
   { store := (h.nextAddr, l) :: h.store
     live := h.nextAddr :: h.live
     nextAddr := h.nextAddr + l.length + 1
     freeErrors := h.freeErrors })

/-- Model of Emscripten `_free`: releases one allocation.  Freeing an
address that is not currently allocated is recorded in `freeErrors`. -/
def Heap.freeAddr (h : Heap) (a : Nat) : Heap :=
  if a ∈ h.live then { h with live := h.live.erase a }
  else { h with freeErrors := h.freeErrors + 1 }

/-- Raw content of the heap cell at address `a` (0 outside any recorded
allocation). -/
def Heap.peek (h : Heap) (a : Nat) : Nat :=
  match h.store.find? (fun p => decide (p.1 ≤ a) && decide (a < p.1 + p.2.length)) with
  | some p => p.2.getD (a - p.1) 0
  | none => 0

/-- Model of a `HEAP8[a]` read as used by the marshaling code: the stored
cell seen through the signed byte view and re-wrapped into an unsigned
byte by the receiving `Uint8Array`, in total a reduction mod 256. -/
def Heap.readHeap8 (h : Heap) (a : Nat) : Nat := h.peek a % 256

/-! ### Model of the engine side of one prepared statement

The engine's statement object is reachable only through the documented C
API (spec section 6: prepare, step, bind by index, bind-name lookup,
column accessors, reset, clear-bindings, finalize).  Because the code
binds text and blobs with destructor argument 0 (SQLITE_STATIC), the
engine retains the caller's buffer address and reads it when the value is
used, which is what makes the allocation arena necessary. -/

/-- Engine-side dynamic value held in a parameter slot or result column.
Text and blob cells record the caller's buffer address and length
(SQLITE_STATIC binding). -/
inductive SqlCell where
  | cnull
  | cint (i : ℤ)
  | creal (q : ℚ)
  | ctext (ptr len : Nat)
  | cblob (ptr len : Nat)
deriving Repr, DecidableEq

/-- The execution behavior a statement was compiled to.  `echo` models a
query of the shape `SELECT ?1, ..., ?n`, which yields exactly one row
holding the current parameter values and then completes: the behavior the
round-trip property of the spec (section 8) is stated against.  `noRows`
models a statement yielding no rows. -/
inductive StmtKind where
  | echo
  | noRows
deriving Repr, DecidableEq

/-- Engine-side state of one compiled statement: declared parameter
count, named-parameter table, result column names, currently bound
parameter cells (1-based slots, unbound slots read as NULL), the current
row if one is available, and whether stepping has completed. -/
structure EngineStmt where
  kind : StmtKind := .echo
  nParams : Nat := 0
  paramNames : List (String × Nat) := []
  colNames : List String := []
  params : List (Nat × SqlCell) := []
  row : Option (List SqlCell) := none
  stepped : Bool := false
deriving Repr, DecidableEq

/-- The world visible through the native boundary: the Emscripten heap,
the engine's live statement objects keyed by their nonzero handles, the
engine's last error message (read by `sqlite3_errmsg`), and the owning
database's statement registry keys (`this.db.statements`, mutated by
`Statement.free`). -/
structure World where
  heap : Heap := {}
  stmts : List (Nat × EngineStmt) := []
  errmsg : String := "not an error"
  registry : List Nat := []
deriving Repr, DecidableEq

/-- Replace the engine statement stored under handle `hnd`. -/
def World.updateStmt (w : World) (hnd : Nat) (f : EngineStmt → EngineStmt) : World :=
  { w with stmts := w.stmts.map (fun p => if p.1 = hnd then (p.1, f p.2) else p) }

/-- Shared slot update used by all four bind primitives, following their
documented behavior: a null statement handle yields SQLITE_MISUSE, a slot
index outside 1..nParams yields SQLITE_RANGE (with the engine's
diagnostic text), and otherwise the cell is stored in the slot. -/
def World.bindCell (w : World) (hnd pos : Nat) (cell : SqlCell) : Nat × World :=
  match w.stmts.lookup hnd with
  | none => (SQLITE_MISUSE, { w with errmsg := "bad parameter or other API misuse" })
  | some st =>
    if pos < 1 ∨ st.nParams < pos then
      (SQLITE_RANGE, { w with errmsg := "column index out of range" })
    else
      (SQLITE_OK, w.updateStmt hnd (fun st => { st with params := (pos, cell) :: st.params }))

/-- Model of `sqlite3_bind_int`. -/
def sqlite3_bind_int (w : World) (hnd pos : Nat) (i : ℤ) : Nat × World :=
  w.bindCell hnd pos (.cint i)

/-- Model of `sqlite3_bind_double`. -/
def sqlite3_bind_double (w : World) (hnd pos : Nat) (q : ℚ) : Nat × World :=
  w.bindCell hnd pos (.creal q)

/-- Model of `sqlite3_bind_text` with destructor 0 (SQLITE_STATIC): the
engine retains the buffer address.  A null buffer pointer binds NULL, as
documented. -/
def sqlite3_bind_text (w : World) (hnd pos ptr len : Nat) : Nat × World :=
  w.bindCell hnd pos (if ptr = 0 then .cnull else .ctext ptr len)

/-- Model of `sqlite3_bind_blob` with destructor 0 (SQLITE_STATIC).  A
null buffer pointer binds NULL, as documented (this is how `bindNull`
binds NULL). -/
def sqlite3_bind_blob (w : World) (hnd pos ptr len : Nat) : Nat × World :=
  w.bindCell hnd pos (if ptr = 0 then .cnull else .cblob ptr len)

/-- Model of `sqlite3_bind_parameter_index`: the slot of a named
parameter, 0 when the name does not occur in the statement. -/
def sqlite3_bind_parameter_index (w : World) (hnd : Nat) (name : String) : Nat :=
  match w.stmts.lookup hnd with
  | none => 0
  | some st => (st.paramNames.lookup name).getD 0

/-- The row an `echo` statement yields: the current parameter cells in
slot order, unbound slots as NULL. -/
def EngineStmt.echoRow (st : EngineStmt) : List SqlCell :=
  (List.range st.nParams).map (fun i => (st.params.lookup (i + 1)).getD .cnull)

/-- Model of `sqlite3_step`: SQLITE_MISUSE on a null handle (as the
engine's own guard does), otherwise runs the statement's behavior one
step, yielding SQLITE_ROW with a fresh current row or SQLITE_DONE. -/
def sqlite3_step (w : World) (hnd : Nat) : Nat × World :=
  match w.stmts.lookup hnd with
  | none => (SQLITE_MISUSE, { w with errmsg := "bad parameter or other API misuse" })
  | some st =>
    match st.kind with
    | .echo =>
      if st.stepped then
        (SQLITE_DONE, w.updateStmt hnd (fun st => { st with row := none }))
      else
        (SQLITE_ROW, w.updateStmt hnd
          (fun st => { st with row := some st.echoRow, stepped := true }))
    | .noRows =>
      (SQLITE_DONE, w.updateStmt hnd (fun st => { st with row := none, stepped := true }))

/-- Model of `sqlite3_data_count`: the number of columns of the current
row; 0 on a null handle or when no row is available, as documented. -/
def sqlite3_data_count (w : World) (hnd : Nat) : Nat :=
  match w.stmts.lookup hnd with
  | none => 0
  | some st => match st.row with
    | none => 0
    | some r => r.length

/-- The cell of the current row at 0-based column `i` (NULL if absent). -/
def World.rowCell (w : World) (hnd i : Nat) : SqlCell :=
  match w.stmts.lookup hnd with
  | none => .cnull
  | some st => match st.row with
    | none => .cnull
    | some r => r.getD i .cnull

/-- Model of `sqlite3_column_type`: the engine's type tag of a result
cell. -/
def sqlite3_column_type (w : World) (hnd i : Nat) : Nat :=
  match w.rowCell hnd i with
  | .cnull => SQLITE_NULL
  | .cint _ => SQLITE_INTEGER
  | .creal _ => SQLITE_FLOAT
  | .ctext _ _ => SQLITE3_TEXT
  | .cblob _ _ => SQLITE_BLOB

/-- Model of `sqlite3_column_double` on an integer or float cell (the
only tags the marshaling code reads numerically; the engine's
text-to-number coercion is not modelled and defaults to 0). -/
def sqlite3_column_double (w : World) (hnd i : Nat) : ℚ :=
  match w.rowCell hnd i with
  | .cint n => (n : ℚ)
  | .creal q => q
  | _ => 0

/-- Model of `sqlite3_column_text` (through the cwrap string return): the
engine reads the retained buffer out of the heap when the column is
accessed.  Only the text tag is modelled; coercions default to the empty
string. -/
def sqlite3_column_text (w : World) (hnd i : Nat) : List Nat :=
  match w.rowCell hnd i with
  | .ctext ptr len => (List.range len).map (fun j => w.heap.peek (ptr + j))
  | _ => []

/-- Model of `sqlite3_column_bytes`: the byte length of a text or blob
cell. -/
def sqlite3_column_bytes (w : World) (hnd i : Nat) : Nat :=
  match w.rowCell hnd i with
  | .ctext _ len => len
  | .cblob _ len => len
  | _ => 0

/-- Model of `sqlite3_column_blob`: the retained buffer address of a blob
cell. -/
def sqlite3_column_blob (w : World) (hnd i : Nat) : Nat :=
  match w.rowCell hnd i with
  | .cblob ptr _ => ptr
  | .ctext ptr _ => ptr
  | _ => 0

/-- Model of `sqlite3_column_name` for 0-based column `i`. -/
def sqlite3_column_name (w : World) (hnd i : Nat) : String :=
  match w.stmts.lookup hnd with
  | none => ""
  | some st => st.colNames.getD i ""

/-- Model of `sqlite3_clear_bindings`: clears every parameter slot.  The
engine performs no null-handle check here (calling it on a finalized
statement is undefined behavior); the model returns SQLITE_MISUSE in that
case, and no theorem depends on that branch. -/
def sqlite3_clear_bindings (w : World) (hnd : Nat) : Nat × World :=
  match w.stmts.lookup hnd with
  | none => (SQLITE_MISUSE, w)
  | some _ => (SQLITE_OK, w.updateStmt hnd (fun st => { st with params := [] }))

/-- Model of `sqlite3_reset`: returns the statement to its initial state,
ready to be stepped again; a null handle is a documented no-op returning
SQLITE_OK. -/
def sqlite3_reset (w : World) (hnd : Nat) : Nat × World :=
  match w.stmts.lookup hnd with
  | none => (SQLITE_OK, w)
  | some _ =>
    (SQLITE_OK, w.updateStmt hnd (fun st => { st with row := none, stepped := false }))

/-- Model of `sqlite3_finalize`: destroys the engine statement object; a
null handle is a documented harmless no-op returning SQLITE_OK. -/
def sqlite3_finalize (w : World) (hnd : Nat) : Nat × World :=
  match w.stmts.lookup hnd with
  | none => (SQLITE_OK, w)
  | some _ => (SQLITE_OK, { w with stmts := w.stmts.filter (fun p => p.1 ≠ hnd) })

/-- Model of `sqlite3_errmsg`: the engine's last error message text. -/
def sqlite3_errmsg (w : World) : String := w.errmsg

/-- Model of Emscripten `intArrayFromString`: the host string converted
to its native byte sequence plus a terminating 0 (code-point granularity
stands in for the UTF-8 bytes, see the file header). -/
def intArrayFromString (cps : List Nat) : List Nat := cps ++ [0]

/-! ### The host Statement object (src/src/Statement.js)

The JS object's mutable fields become a structure; each method becomes a
function from the object and the world to the result, the updated object
and the updated world.  A thrown JS value is an `Except.error` carrying
its message; the object and world states at the moment of the throw are
returned alongside, since a JS exception does not roll back mutations. -/

/-- The fields set by the `Statement` constructor: the native statement
handle (`NULL` = 0 after `free`), the 1-based implicit cursor `pos`, and
the addresses of the native buffers allocated for the current bind set. -/
structure StmtObj where
  stmt : Nat
  pos : Nat := 1
  allocatedmem : List Nat := []
deriving Repr, DecidableEq

/-- The bind parameters accepted by `Statement.bind`: a JS array (bound
positionally) or a plain object (bound by parameter name). -/
inductive BindParams where
  | arr (vs : List JSValue)
  | obj (kvs : List (String × JSValue))
deriving Repr, DecidableEq

namespace Statement

/-- `Database.handleError`: null for SQLITE_OK, otherwise throws an Error
carrying the engine's last error message. -/
def handleError (w : World) (returnCode : Nat) : Except String Unit :=
  if returnCode = SQLITE_OK then .ok () else .error (sqlite3_errmsg w)

/-- The shared prologue of the bind helpers and the column readers: a
null `pos` argument selects the current implicit cursor and advances it. -/
def takePos (s : StmtObj) (pos? : Option Nat) : Nat × StmtObj :=
  match pos? with
  | none => (s.pos, { s with pos := s.pos + 1 })
  | some p => (p, s)

/-- `Statement.freemem`: pops and frees every recorded allocation (most
recently pushed first). -/
def freemem (s : StmtObj) (w : World) : StmtObj × World :=
  ({ s with allocatedmem := [] },
   { w with heap := s.allocatedmem.reverse.foldl Heap.freeAddr w.heap })

/-- `Statement.reset`: frees the bind-set allocations, then clears the
bindings and resets the engine statement.  The JS `&&` short-circuits: a
failing `sqlite3_clear_bindings` skips the `sqlite3_reset` call. -/
def reset (s : StmtObj) (w : World) : Bool × StmtObj × World :=
  let fm := freemem s w
  let s := fm.1
  let w := fm.2
  let cb := sqlite3_clear_bindings w s.stmt
  let w := cb.2
  if cb.1 = SQLITE_OK then
    let rs := sqlite3_reset w s.stmt
    (rs.1 = SQLITE_OK, s, rs.2)
  else (false, s, w)

/-- `Statement.bindString`: encodes the string, copies it into a native
allocation recorded in `allocatedmem`, and binds the buffer (without its
terminator byte) through the engine's text bind primitive, routing the
status through `handleError`. -/
def bindString (s : StmtObj) (w : World) (str : List Nat) (pos? : Option Nat) :
    Except String Bool × StmtObj × World :=
  let ps := takePos s pos?
  let pos := ps.1
  let s := ps.2
  let bytes := intArrayFromString str
  let ah := w.heap.allocate bytes
  let strptr := ah.1
  let w := { w with heap := ah.2 }
  let s := { s with allocatedmem := s.allocatedmem ++ [strptr] }
  let bt := sqlite3_bind_text w s.stmt pos strptr (bytes.length - 1)
  let w := bt.2
  match handleError w bt.1 with
  | .error m => (.error m, s, w)
  | .ok _ => (.ok true, s, w)

/-- `Statement.bindBlob`: copies the byte buffer into a native allocation
recorded in `allocatedmem` and binds it through the engine's blob bind
primitive, routing the status through `handleError`. -/
def bindBlob (s : StmtObj) (w : World) (array : List Nat) (pos? : Option Nat) :
    Except String Bool × StmtObj × World :=
  let ps := takePos s pos?
  let pos := ps.1
  let s := ps.2
  let ah := w.heap.allocate array
  let blobptr := ah.1
  let w := { w with heap := ah.2 }
  let s := { s with allocatedmem := s.allocatedmem ++ [blobptr] }
  let bb := sqlite3_bind_blob w s.stmt pos blobptr array.length
  let w := bb.2
  match handleError w bb.1 with
  | .error m => (.error m, s, w)
  | .ok _ => (.ok true, s, w)

/-- JS truncation toward zero, the integer part of `ToInt32`. -/
def jsTrunc (q : ℚ) : ℤ := if q < 0 then ⌈q⌉ else ⌊q⌋

/-- The JS `num | 0` conversion (ToInt32): truncate toward zero, then
wrap into the signed 32-bit range. -/
def jsToInt32 (q : ℚ) : ℤ :=
  let m : ℤ := jsTrunc q % 4294967296
  if m < 2147483648 then m else m - 4294967296

/-- `Statement.bindNumber`: binds through the engine's integer primitive
when `num === (num | 0)` (the value equals its 32-bit truncation) and
through the double primitive otherwise, routing the status through
`handleError`. -/
def bindNumber (s : StmtObj) (w : World) (num : ℚ) (pos? : Option Nat) :
    Except String Bool × StmtObj × World :=
  let ps := takePos s pos?
  let pos := ps.1
  let s := ps.2
  let bf :=
    if num = (jsToInt32 num : ℚ) then sqlite3_bind_int w s.stmt pos (jsToInt32 num)
    else sqlite3_bind_double w s.stmt pos num
  let w := bf.2
  match handleError w bf.1 with
  | .error m => (.error m, s, w)
  | .ok _ => (.ok true, s, w)

/-- `Statement.bindNull`: binds NULL through the blob primitive with a
null buffer pointer and reports the status as a plain boolean (the one
bind helper that does not route through `handleError`). -/
def bindNull (s : StmtObj) (w : World) (pos? : Option Nat) :
    Except String Bool × StmtObj × World :=
  let ps := takePos s pos?
  let pos := ps.1
  let s := ps.2
  let bb := sqlite3_bind_blob w s.stmt pos 0 0
  (.ok (bb.1 = SQLITE_OK), s, bb.2)

/-- `Statement.bindValue`: resolves the slot (advancing the implicit
cursor when none is given), then dispatches on the host value's dynamic
type; a value of no supported type throws the fixed wrong-API-use
message with the value's description interpolated. -/
def bindValue (s : StmtObj) (w : World) (val : JSValue) (pos? : Option Nat) :
    Except String Bool × StmtObj × World :=
  let ps := takePos s pos?
  let pos := ps.1
  let s := ps.2
  match val with
  | .vstr cps => bindString s w cps (some pos)
  | .vnum q => bindNumber s w q (some pos)
  | .vbool b => bindNumber s w (if b then 1 else 0) (some pos)
  | .vnull => bindNull s w (some pos)
  | .vblob bs => bindBlob s w bs (some pos)
  | v => (.error ("Wrong API use : tried to bind a value of an unknown type ("
            ++ jsDescribe v ++ ")."), s, w)

/-- The loop body of `Statement.bindFromArray`: binds `values[num]` to
slot `num + 1`; a thrown bind error aborts the loop. -/
def bindFromArrayAux (s : StmtObj) (w : World) :
    List JSValue → Nat → Except String Bool × StmtObj × World
  | [], _ => (.ok true, s, w)
  | v :: rest, num =>
    match bindValue s w v (some (num + 1)) with
    | (.error m, s1, w1) => (.error m, s1, w1)
    | (.ok _, s1, w1) => bindFromArrayAux s1 w1 rest (num + 1)

/-- `Statement.bindFromArray`: binds the array elements to the numbered
slots 1..N. -/
def bindFromArray (s : StmtObj) (w : World) (values : List JSValue) :
    Except String Bool × StmtObj × World :=
  bindFromArrayAux s w values 0

/-- The loop body of `Statement.bindFromObject`: resolves each key
through the engine's named-parameter lookup and binds it when found
(index 0, a key not present in the statement, is silently skipped). -/
def bindFromObjectAux (s : StmtObj) (w : World) :
    List (String × JSValue) → Except String Bool × StmtObj × World
  | [] => (.ok true, s, w)
  | (name, v) :: rest =>
    let num := sqlite3_bind_parameter_index w s.stmt name
    if num ≠ 0 then
      match bindValue s w v (some num) with
      | (.error m, s1, w1) => (.error m, s1, w1)
      | (.ok _, s1, w1) => bindFromObjectAux s1 w1 rest
    else bindFromObjectAux s w rest

/-- `Statement.bindFromObject`: binds the object entries to the named
parameters of the statement. -/
def bindFromObject (s : StmtObj) (w : World) (kvs : List (String × JSValue)) :
    Except String Bool × StmtObj × World :=
  bindFromObjectAux s w kvs

/-- `Statement.bind`: fails with "Statement closed" on a finalized
statement, otherwise resets the statement and dispatches to the array or
object binder (a null or non-object argument binds nothing and returns
true). -/
def bind (s : StmtObj) (w : World) (values : Option BindParams) :
    Except String Bool × StmtObj × World :=
  if s.stmt = 0 then (.error "Statement closed", s, w)
  else
    let rs := reset s w
    let s := rs.2.1
    let w := rs.2.2
    match values with
    | some (.arr vs) => bindFromArray s w vs
    | some (.obj kvs) => bindFromObject s w kvs
    | none => (.ok true, s, w)

/-- `Statement.step`: fails with "Statement closed" on a finalized
statement; otherwise resets the cursor to 1 and single-steps the engine,
returning true on a new row, false on completion, and throwing via
`handleError` on any other status. -/
def step (s : StmtObj) (w : World) : Except String Bool × StmtObj × World :=
  if s.stmt = 0 then (.error "Statement closed", s, w)
  else
    let s := { s with pos := 1 }
    let sp := sqlite3_step w s.stmt
    let ret := sp.1
    let w := sp.2
    if ret = SQLITE_ROW then (.ok true, s, w)
    else if ret = SQLITE_DONE then (.ok false, s, w)
    else (.error (sqlite3_errmsg w), s, w)

/-- `Statement.getNumber`: reads one column through the engine's double
accessor, at the explicit index or the implicit cursor (advancing it). -/
def getNumber (s : StmtObj) (w : World) (pos? : Option Nat) : ℚ × StmtObj :=
  let ps := takePos s pos?
  (sqlite3_column_double w ps.2.stmt ps.1, ps.2)

/-- `Statement.getString`: reads one column through the engine's text
accessor, at the explicit index or the implicit cursor (advancing it). -/
def getString (s : StmtObj) (w : World) (pos? : Option Nat) : List Nat × StmtObj :=
  let ps := takePos s pos?
  (sqlite3_column_text w ps.2.stmt ps.1, ps.2)

/-- `Statement.getBlob`: reads the column's byte length and buffer
address, then copies the bytes one by one out of `HEAP8` into a fresh
`Uint8Array`. -/
def getBlob (s : StmtObj) (w : World) (pos? : Option Nat) : List Nat × StmtObj :=
  let ps := takePos s pos?
  let size := sqlite3_column_bytes w ps.2.stmt ps.1
  let ptr := sqlite3_column_blob w ps.2.stmt ps.1
  ((List.range size).map (fun i => w.heap.readHeap8 (ptr + i)), ps.2)

/-- The read loop of `Statement.get`: one decoded value per column of
the current row, dispatching on `sqlite3_column_type` (integer and float
through `getNumber`, text through `getString`, blob through `getBlob`,
anything else null), each read at its explicit column index. -/
def getLoop (s : StmtObj) (w : World) : List Nat → List JSValue × StmtObj
  | [] => ([], s)
  | field :: rest =>
    let t := sqlite3_column_type w s.stmt field
    let vs1 : JSValue × StmtObj :=
      if t = SQLITE_INTEGER ∨ t = SQLITE_FLOAT then
        let ns := getNumber s w (some field); (.vnum ns.1, ns.2)
      else if t = SQLITE3_TEXT then
        let cs := getString s w (some field); (.vstr cs.1, cs.2)
      else if t = SQLITE_BLOB then
        let bs1 := getBlob s w (some field); (.vblob bs1.1, bs1.2)
      else (.vnull, s)
    let rest1 := getLoop vs1.2 w rest
    (vs1.1 :: rest1.1, rest1.2)

/-- `Statement.get`: when params are given, binds them and (since the
binders return true) steps; then reads every column of the current row,
0 through `sqlite3_data_count - 1`. -/
def get (s : StmtObj) (w : World) (params : Option BindParams) :
    Except String (List JSValue) × StmtObj × World :=
  match params with
  | some p =>
    (match bind s w (some p) with
     | (.error m, s1, w1) => (.error m, s1, w1)
     | (.ok b, s1, w1) =>
       if b then
         match step s1 w1 with
         | (.error m, s2, w2) => (.error m, s2, w2)
         | (.ok _, s2, w2) =>
           let g := getLoop s2 w2 (List.range (sqlite3_data_count w2 s2.stmt))
           (.ok g.1, g.2, w2)
       else
         let g := getLoop s1 w1 (List.range (sqlite3_data_count w1 s1.stmt))
         (.ok g.1, g.2, w1))
  | none =>
    let g := getLoop s w (List.range (sqlite3_data_count w s.stmt))
    (.ok g.1, g.2, w)

/-- `Statement.getColumnNames`: one engine column name per column of the
current row (`sqlite3_data_count` many). -/
def getColumnNames (s : StmtObj) (w : World) : List String :=
  (List.range (sqlite3_data_count w s.stmt)).map (fun i => sqlite3_column_name w s.stmt i)

/-- `Statement.run`: binds the values when given, steps once discarding
the row, and resets, returning the reset status. -/
def run (s : StmtObj) (w : World) (values : Option BindParams) :
    Except String Bool × StmtObj × World :=
  match values with
  | some p =>
    (match bind s w (some p) with
     | (.error m, s1, w1) => (.error m, s1, w1)
     | (.ok _, s1, w1) =>
       match step s1 w1 with
       | (.error m, s2, w2) => (.error m, s2, w2)
       | (.ok _, s2, w2) =>
         let r := reset s2 w2
         (.ok r.1, r.2.1, r.2.2))
  | none =>
    match step s w with
    | (.error m, s1, w1) => (.error m, s1, w1)
    | (.ok _, s1, w1) =>
      let r := reset s1 w1
      (.ok r.1, r.2.1, r.2.2)

/-- `Statement.free`: frees the bind-set allocations, finalizes the
engine statement, removes the statement from the owning database's
registry, and clears the handle. -/
def free (s : StmtObj) (w : World) : Bool × StmtObj × World :=
  let fm := freemem s w
  let s := fm.1
  let fz := sqlite3_finalize fm.2 s.stmt
  let w := { fz.2 with registry := fz.2.registry.erase s.stmt }
  (fz.1 = SQLITE_OK, { s with stmt := 0 }, w)

end Statement

/-! ### Scenario states and helper lemmas -/

/-- The engine side of a freshly prepared one-parameter echo statement
(`SELECT ?1`) under handle 1, on a fresh heap. -/
def w1 : World := { stmts := [(1, { kind := .echo, nParams := 1, colNames := ["?1"] })] }

/-- The host statement object just constructed on handle 1. -/
def s1 : StmtObj := { stmt := 1 }

/-- The round-trip scenario of the spec: bind the value as the single
parameter via `Statement.bind`, execute `step`, and read the value back
via `Statement.get`. -/
def roundTrip (v : JSValue) : Except String (List JSValue) :=
  match Statement.bind s1 w1 (some (.arr [v])) with
  | (.error m, _, _) => .error m
  | (.ok _, s, w) =>
    match Statement.step s w with
    | (.error m, _, _) => .error m
    | (.ok _, s, w) => (Statement.get s w none).1

/-- The host value kinds the round-trip property ranges over: null,
booleans, numbers, strings, and byte buffers (whose elements, coming from
a `Uint8Array`, are bytes). -/
def SupportedVal : JSValue → Prop
  | .vnull => True
  | .vbool _ => True
  | .vnum _ => True
  | .vstr _ => True
  | .vblob bs => ∀ b ∈ bs, b < 256
  | _ => False

/-- Observational equality after the round trip: every value reads back
as itself except booleans, which read back as the numbers 0/1. -/
def roundTripExpected : JSValue → JSValue
  | .vbool b => .vnum (if b then 1 else 0)
  | v => v

/-- Allocator well-formedness: live bases are distinct and below the bump
pointer. -/
def Heap.wf (h : Heap) : Prop := h.live.Nodup ∧ ∀ a ∈ h.live, a < h.nextAddr

/-- The arena invariant of claim C2: the heap is well formed, the
recorded addresses are distinct, and every recorded address is currently
allocated. -/
def arenaInv (s : StmtObj) (w : World) : Prop :=
  w.heap.wf ∧ s.allocatedmem.Nodup ∧ ∀ a ∈ s.allocatedmem, a ∈ w.heap.live

/-- One public operation on a prepared statement, used to quantify over
every reachable statement state. -/
inductive StOp where
  | opBind (values : Option BindParams)
  | opBindValue (v : JSValue) (pos? : Option Nat)
  | opBindString (cps : List Nat) (pos? : Option Nat)
  | opBindBlob (bs : List Nat) (pos? : Option Nat)
  | opBindNumber (q : ℚ) (pos? : Option Nat)
  | opBindNull (pos? : Option Nat)
  | opStep
  | opGet (params : Option BindParams)
  | opRun (values : Option BindParams)
  | opReset
  | opFree
deriving Repr

/-- Apply one operation to the statement and world, discarding the
returned value (only the state evolution matters here). -/
def applyOp (sw : StmtObj × World) : StOp → StmtObj × World
  | .opBind values => (Statement.bind sw.1 sw.2 values).2
  | .opBindValue v pos? => (Statement.bindValue sw.1 sw.2 v pos?).2
  | .opBindString cps pos? => (Statement.bindString sw.1 sw.2 cps pos?).2
  | .opBindBlob bs pos? => (Statement.bindBlob sw.1 sw.2 bs pos?).2
  | .opBindNumber q pos? => (Statement.bindNumber sw.1 sw.2 q pos?).2
  | .opBindNull pos? => (Statement.bindNull sw.1 sw.2 pos?).2
  | .opStep => (Statement.step sw.1 sw.2).2
  | .opGet params => (Statement.get sw.1 sw.2 params).2
  | .opRun values => (Statement.run sw.1 sw.2 values).2
  | .opReset => (Statement.reset sw.1 sw.2).2
  | .opFree => (Statement.free sw.1 sw.2).2

/-- The parameter cell bound in slot 1 of the scenario statement. -/
def boundCell (w : World) : Option SqlCell :=
  (w.stmts.lookup 1).bind (fun st => st.params.lookup 1)

/-! ### Model of Database.exec over engine statement behaviors (part_002)

For the multi-statement execution claims the engine side is abstracted
one level further: a compiled statement is summarized by the behavior the
engine gives it (its column names, the host-level rows its successive
steps yield, and whether binding or stepping fails), and the
prepare-with-tail-pointer loop receives the SQL text as the sequence of
its `;`-separated segments, each described by what the engine's prepare
does with it.  The Statement methods exec calls (bind, step,
getColumnNames, get, free) are the ones verified against the engine model
above; here they are taken at this behavioral interface. -/

/-- One entry of the array returned by `Database.exec`: the
`{columns, values}` object created on the first successful step of a
statement. -/
structure QueryResult where
  columns : List String
  values : List (List JSValue)
deriving Repr, DecidableEq

/-- Behavioral summary of one compiled statement: its result column
names, the rows its successive steps yield (already decoded to host
values by `Statement.get`), whether `Statement.bind` raises, and whether
stepping past the listed rows raises instead of completing. -/
structure StmtSpec where
  cols : List String
  rows : List (List JSValue)
  bindErr : Option String := none
  stepErr : Option String := none
deriving Repr, DecidableEq

/-- One `;`-separated segment of the SQL text fed through the engine's
tail-pointer prepare: whitespace or comments only (prepare succeeds with
a NULL statement pointer), a prepare failure, or a compiled statement. -/
inductive Seg where
  | empty
  | prepErr (msg : String)
  | good (spec : StmtSpec)
deriving Repr, DecidableEq

/-- The engine's statement-object table: the live handles and the fresh
handle source (handles are nonzero). -/
structure EngineB where
  live : List Nat := []
  next : Nat := 1
deriving Repr, DecidableEq

/-- The host Database object fields exec touches: whether the native
handle is open, and the keys of `this.statements` (the statement
registry). -/
structure DbB where
  dbOpen : Bool := true
  registry : List Nat := []
deriving Repr, DecidableEq

/-- Ghost snapshot recorded right after `new Statement(pStmt, this)`
inside exec's loop: the fresh handle and the engine live-handle set and
registry keys at that moment.  Recording it does not alter the data
flow of exec. -/
structure SnapB where
  handle : Nat
  live : List Nat
  registry : List Nat
deriving Repr, DecidableEq

/-- `Statement.free` at the behavioral interface: `sqlite3_finalize` (a
no-op on handle 0 or an already-finalized handle) plus
`delete this.db.statements[this.stmt]`. -/
def freeB (e : EngineB) (d : DbB) (h : Nat) : EngineB × DbB :=
  ({ e with live := e.live.erase h }, { d with registry := d.registry.erase h })

/-- The loop of `Database.exec`: while SQL text remains, prepare the next
segment through the tail pointer, and for a non-NULL statement bind the
params if given, step collecting rows (creating the result entry on the
first row), and free the statement; any raise is caught once at the top,
where the in-flight statement object (`stmtVar`, whose handle is 0 once
freed) is freed before the error is re-raised. -/
def execGo (params : Bool) : List Seg → EngineB → DbB → Option Nat → List QueryResult →
    List SnapB → (Except String (List QueryResult)) × EngineB × DbB × List SnapB
  | [], e, d, _, acc, snaps => (.ok acc, e, d, snaps)
  | seg :: rest, e, d, stmtVar, acc, snaps =>
    match seg with
    | .empty => execGo params rest e d stmtVar acc snaps
    | .prepErr msg =>
      match stmtVar with
      | some h =>
        let ed := freeB e d h
        (.error msg, ed.1, ed.2, snaps)
      | none => (.error msg, e, d, snaps)
    | .good spec =>
      let h := e.next
      let e1 : EngineB := { live := h :: e.live, next := e.next + 1 }
      let snaps1 := snaps ++ [⟨h, e1.live, d.registry⟩]
      match (if params then spec.bindErr else none) with
      | some msg =>
        let ed := freeB e1 d h
        (.error msg, ed.1, ed.2, snaps1)
      | none =>
        let acc1 := if spec.rows.isEmpty then acc else acc ++ [⟨spec.cols, spec.rows⟩]
        match spec.stepErr with
        | some msg =>
          let ed := freeB e1 d h
          (.error msg, ed.1, ed.2, snaps1)
        | none =>
          let ed := freeB e1 d h
          execGo params rest ed.1 ed.2 (some 0) acc1 snaps1

/-- `Database.exec`: the closed-database guard followed by the loop. -/
def execB (sql : List Seg) (params : Bool) (e : EngineB) (d : DbB) :
    (Except String (List QueryResult)) × EngineB × DbB × List SnapB :=
  if d.dbOpen = false then (.error "Database closed", e, d, [])
  else execGo params sql e d none [] []

/-- `Database.prepare` at the behavioral interface: `sqlite3_prepare_v2`
either fails (`handleError` throws before any statement exists), compiles
nothing (a NULL statement pointer, "Nothing to prepare"), or allocates a
fresh engine statement handle wrapped in a new Statement object.  When
params are given, `stmt.bind(params)` runs before the registration
`this.statements[pStmt] = stmt`, so a throwing bind propagates out of
prepare with the statement left live and unregistered; only when the
bind succeeds (or no params are given) is the handle registered. -/
def prepareB (seg : Seg) (params : Bool) (e : EngineB) (d : DbB) :
    Except String Nat × EngineB × DbB :=
  match seg with
  | .prepErr msg => (.error msg, e, d)
  | .empty => (.error "Nothing to prepare", e, d)
  | .good spec =>
    let h := e.next
    let e1 : EngineB := { live := h :: e.live, next := e.next + 1 }
    match (if params then spec.bindErr else none) with
    | some msg => (.error msg, e1, d)
    | none => (.ok h, e1, { d with registry := h :: d.registry })

/-- Well-formedness of the engine table and registry: live handles are
nonzero, distinct and below the fresh-handle source, and registry keys
are nonzero and below it. -/
def EngineB.wf (e : EngineB) (d : DbB) : Prop :=
  (∀ h ∈ e.live, 0 < h ∧ h < e.next) ∧ e.live.Nodup ∧
  (∀ k ∈ d.registry, 0 < k ∧ k < e.next) ∧ d.registry.Nodup

/-- The result entry a segment contributes to exec's return value: one
`{columns, values}` per statement producing at least one row. -/
def Seg.entry : Seg → Option QueryResult
  | .good spec => if spec.rows.isEmpty then none else some ⟨spec.cols, spec.rows⟩
  | _ => none

/-- A segment on which exec's processing raises no error. -/
def Seg.ok (params : Bool) : Seg → Prop
  | .empty => True
  | .prepErr _ => False
  | .good spec => (params = true → spec.bindErr = none) ∧ spec.stepErr = none

/-! ### Theorems -/

theorem list_map_getD_range {α : Type} (l : List α) (d : α) :
    (List.range l.length).map (fun i => l.getD i d) = l := by
  apply List.ext_getElem
  · simp
  · intro i h1 h2
    simp [List.getD_eq_getElem, List.getElem?_eq_getElem h2]

theorem Heap.peek_allocate (h : Heap) (l : List Nat) (i : Nat) (hi : i < l.length) :
    ((h.allocate l).2).peek ((h.allocate l).1 + i) = l.getD i 0 := by
  unfold Heap.allocate Heap.peek
  rw [List.find?_cons_of_pos]
  · simp
  · simp
    omega

theorem roundTrip_vnum (q : ℚ) : roundTrip (.vnum q) = .ok [.vnum q] := by
  by_cases h : q = (Statement.jsToInt32 q : ℚ)
  · simp [roundTrip, Statement.bind, Statement.reset, Statement.freemem, Statement.bindFromArray,
      Statement.bindFromArrayAux, Statement.bindValue, Statement.bindNumber, Statement.takePos,
      Statement.handleError, Statement.step, Statement.get, Statement.getLoop, Statement.getNumber,
      s1, w1, sqlite3_clear_bindings, sqlite3_reset, sqlite3_bind_int, sqlite3_bind_double,
      World.bindCell, World.updateStmt, sqlite3_step, sqlite3_data_count, sqlite3_column_type,
      sqlite3_column_double, World.rowCell, EngineStmt.echoRow, sqlite3_errmsg,
      SQLITE_OK, SQLITE_ROW, SQLITE_DONE, SQLITE_INTEGER, SQLITE_FLOAT, SQLITE3_TEXT, SQLITE_BLOB,
      SQLITE_NULL, SQLITE_RANGE, SQLITE_MISUSE, if_pos h, List.lookup, List.range_succ]
    rw [← h]
  · simp [roundTrip, Statement.bind, Statement.reset, Statement.freemem, Statement.bindFromArray,
      Statement.bindFromArrayAux, Statement.bindValue, Statement.bindNumber, Statement.takePos,
      Statement.handleError, Statement.step, Statement.get, Statement.getLoop, Statement.getNumber,
      s1, w1, sqlite3_clear_bindings, sqlite3_reset, sqlite3_bind_int, sqlite3_bind_double,
      World.bindCell, World.updateStmt, sqlite3_step, sqlite3_data_count, sqlite3_column_type,
      sqlite3_column_double, World.rowCell, EngineStmt.echoRow, sqlite3_errmsg,
      SQLITE_OK, SQLITE_ROW, SQLITE_DONE, SQLITE_INTEGER, SQLITE_FLOAT, SQLITE3_TEXT, SQLITE_BLOB,
      SQLITE_NULL, SQLITE_RANGE, SQLITE_MISUSE, if_neg h, List.lookup, List.range_succ]

theorem roundTrip_vstr (cps : List Nat) : roundTrip (.vstr cps) = .ok [.vstr cps] := by
  simp [roundTrip, Statement.bind, Statement.reset, Statement.freemem, Statement.bindFromArray,
      Statement.bindFromArrayAux, Statement.bindValue, Statement.bindString, Statement.takePos,
      Statement.handleError, Statement.step, Statement.get, Statement.getLoop, Statement.getString,
      s1, w1, sqlite3_clear_bindings, sqlite3_reset, sqlite3_bind_text, intArrayFromString,
      World.bindCell, World.updateStmt, sqlite3_step, sqlite3_data_count, sqlite3_column_type,
      sqlite3_column_text, World.rowCell, EngineStmt.echoRow, sqlite3_errmsg, Heap.allocate,
      SQLITE_OK, SQLITE_ROW, SQLITE_DONE, SQLITE_INTEGER, SQLITE_FLOAT, SQLITE3_TEXT, SQLITE_BLOB,
      SQLITE_NULL, SQLITE_RANGE, SQLITE_MISUSE, List.lookup, List.range_succ]
  have hx : ∀ j ∈ List.range cps.length,
      ({ store := [(1, cps ++ [0])], live := [1], nextAddr := 1 + (cps.length + 1) + 1,
         freeErrors := 0 } : Heap).peek (1 + j) = cps.getD j 0 := by
    intro j hj
    rw [List.mem_range] at hj
    unfold Heap.peek
    rw [List.find?_cons_of_pos]
    · simp [List.getElem?_append, hj]
    · simp
      omega
  rw [List.map_congr_left hx, list_map_getD_range]

theorem roundTrip_vblob (bs : List Nat) (hbs : ∀ b ∈ bs, b < 256) :
    roundTrip (.vblob bs) = .ok [.vblob bs] := by
  simp [roundTrip, Statement.bind, Statement.reset, Statement.freemem, Statement.bindFromArray,
      Statement.bindFromArrayAux, Statement.bindValue, Statement.bindBlob, Statement.takePos,
      Statement.handleError, Statement.step, Statement.get, Statement.getLoop, Statement.getBlob,
      s1, w1, sqlite3_clear_bindings, sqlite3_reset, sqlite3_bind_blob,
      World.bindCell, World.updateStmt, sqlite3_step, sqlite3_data_count, sqlite3_column_type,
      sqlite3_column_blob, sqlite3_column_bytes, World.rowCell, EngineStmt.echoRow, sqlite3_errmsg,
      Heap.allocate, Heap.readHeap8,
      SQLITE_OK, SQLITE_ROW, SQLITE_DONE, SQLITE_INTEGER, SQLITE_FLOAT, SQLITE3_TEXT, SQLITE_BLOB,
      SQLITE_NULL, SQLITE_RANGE, SQLITE_MISUSE, List.lookup, List.range_succ]
  have hx : ∀ j ∈ List.range bs.length,
      ({ store := [(1, bs)], live := [1], nextAddr := 1 + bs.length + 1,
         freeErrors := 0 } : Heap).peek (1 + j) % 256 = bs.getD j 0 := by
    intro j hj
    rw [List.mem_range] at hj
    have hb : bs[j]?.getD 0 < 256 := by
      rw [List.getElem?_eq_getElem hj]
      simpa using hbs _ (List.getElem_mem hj)
    unfold Heap.peek
    rw [List.find?_cons_of_pos]
    · simp [Nat.mod_eq_of_lt hb]
    · simp
      omega
  rw [List.map_congr_left hx, list_map_getD_range]

/-- Claim C1: for every supported host value kind (null, boolean,
number — integral or not, positive or negative — string including empty
and unicode, byte buffer including empty), binding the value as a
parameter via `Statement.bind`, executing `step`, and reading it back via
`Statement.get` yields a value observationally equal to the original,
with booleans reading back as the numbers 0/1. -/
theorem bind_step_get_round_trip (v : JSValue) (hv : SupportedVal v) :
    roundTrip v = .ok [roundTripExpected v] := by
  cases v with
  | vundef => exact hv.elim
  | vnull => rfl
  | vbool b => cases b <;> rfl
  | vnum q => exact roundTrip_vnum q
  | vstr cps => exact roundTrip_vstr cps
  | vblob bs => exact roundTrip_vblob bs hv
  | vobj d => exact hv.elim

/-- Witness for C1 at a concrete byte buffer (the kind with a
hypothesis). -/
theorem bind_step_get_round_trip_witness :
    SupportedVal (.vblob [0, 255]) ∧ roundTrip (.vblob [0, 255]) = .ok [.vblob [0, 255]] :=
  ⟨by intro b hb; simp at hb; rcases hb with h | h <;> simp [h],
   bind_step_get_round_trip (.vblob [0, 255])
     (by intro b hb; simp at hb; rcases hb with h | h <;> simp [h])⟩

/-! ### Claim C3: operations on a finalized statement -/

/-- Claim C3 counterexample: on a finalized statement (handle cleared to
0), `getColumnNames` returns an empty list and `get` without params
returns an empty row, instead of failing with the "Statement closed"
error the claim demands for every operation. -/
theorem closed_statement_no_guard_counterexample :
    Statement.getColumnNames { stmt := 0 } w1 = [] ∧
    (Statement.get { stmt := 0 } w1 none).1 = .ok [] ∧
    (Statement.get { stmt := 0 } w1 none).1 ≠ .error "Statement closed" := by
  refine ⟨rfl, rfl, ?_⟩
  intro h
  exact Except.noConfusion
    (show (Except.ok [] : Except String (List JSValue)) = .error "Statement closed" from h)

/-- Claim C3 amended: on a finalized statement, `bind`, `step`, and `run`
fail with "Statement closed", and `get` fails likewise when params are
given; but `get` without params and `getColumnNames` perform no check and
return empty results. -/
theorem closed_statement_guards (s : StmtObj) (w : World) (hs : s.stmt = 0)
    (hw : w.stmts.lookup 0 = none) :
    (∀ values, (Statement.bind s w values).1 = .error "Statement closed") ∧
    (Statement.step s w).1 = .error "Statement closed" ∧
    (∀ values, (Statement.run s w values).1 = .error "Statement closed") ∧
    (∀ p, (Statement.get s w (some p)).1 = .error "Statement closed") ∧
    (Statement.get s w none).1 = .ok [] ∧
    Statement.getColumnNames s w = [] := by
  have hbind : ∀ values, Statement.bind s w values = (.error "Statement closed", s, w) := by
    intro values
    simp [Statement.bind, hs]
  have hstep : Statement.step s w = (.error "Statement closed", s, w) := by
    simp [Statement.step, hs]
  refine ⟨fun values => by rw [hbind], by rw [hstep], ?_, ?_, ?_, ?_⟩
  · intro values
    cases values with
    | none => simp [Statement.run, hstep]
    | some p => simp [Statement.run, hbind]
  · intro p
    simp [Statement.get, hbind]
  · simp [Statement.get, Statement.getLoop, sqlite3_data_count, hs, hw]
  · simp [Statement.getColumnNames, sqlite3_data_count, hs, hw]

/-- Witness for C3 amended, at the concrete finalized statement over the
scenario world. -/
theorem closed_statement_guards_witness :
    ({ stmt := 0 } : StmtObj).stmt = 0 ∧ w1.stmts.lookup 0 = none ∧
    (Statement.step { stmt := 0 } w1).1 = .error "Statement closed" :=
  ⟨rfl, rfl, (closed_statement_guards { stmt := 0 } w1 rfl rfl).2.1⟩

/-! ### Claim C8: integer-versus-real classification of bound numbers -/


theorem jsToInt32_intCast (n : ℤ) (h1 : -2147483648 ≤ n) (h2 : n < 2147483648) :
    Statement.jsToInt32 (n : ℚ) = n := by
  unfold Statement.jsToInt32 Statement.jsTrunc
  have hfloor : ⌊(n : ℚ)⌋ = n := Int.floor_intCast n
  have hceil : ⌈(n : ℚ)⌉ = n := Int.ceil_intCast n
  by_cases hn : (n : ℚ) < 0 <;> simp only [hn, if_pos, if_neg, ite_true, ite_false, hfloor, hceil] <;>
    split <;> omega

theorem jsToInt32_range (q : ℚ) :
    -2147483648 ≤ Statement.jsToInt32 q ∧ Statement.jsToInt32 q < 2147483648 := by
  unfold Statement.jsToInt32
  have h1 : 0 ≤ Statement.jsTrunc q % 4294967296 := Int.emod_nonneg _ (by norm_num)
  have h2 : Statement.jsTrunc q % 4294967296 < 4294967296 := Int.emod_lt_of_pos _ (by norm_num)
  by_cases hm : Statement.jsTrunc q % 4294967296 < 2147483648 <;> simp [hm] <;> omega

/-- Claim C8 counterexample: 2^31 has no fractional part and lies well
inside the engine's 64-bit integer range, so the claim classifies it
Integer; but `bindNumber` compares against the 32-bit truncation
(`num === (num | 0)`) and binds it through the double primitive, storing
a Real cell. -/
theorem bindNumber_two_pow_31_counterexample :
    ((2147483648 : ℚ) = ((2147483648 : ℤ) : ℚ) ∧
      -(2 ^ 63) ≤ (2147483648 : ℤ) ∧ (2147483648 : ℤ) < 2 ^ 63) ∧
    boundCell ((Statement.bindNumber s1 w1 2147483648 (some 1)).2.2) =
      some (.creal 2147483648) := by
  refine ⟨⟨by norm_num, by norm_num, by norm_num⟩, ?_⟩
  rfl

/-- Claim C8 amended: `bindNumber` invokes the engine's integer bind
primitive (storing an Integer cell) exactly when the value equals its JS
32-bit truncation — an integer in [-2^31, 2^31) — and the double
primitive (storing a Real cell) otherwise. -/
theorem bindNumber_int32_classification (q : ℚ) :
    boundCell ((Statement.bindNumber s1 w1 q (some 1)).2.2) =
      some (if q = (Statement.jsToInt32 q : ℚ) then .cint (Statement.jsToInt32 q)
            else .creal q) ∧
    (q = (Statement.jsToInt32 q : ℚ) ↔
      ∃ n : ℤ, q = (n : ℚ) ∧ -2147483648 ≤ n ∧ n < 2147483648) := by
  constructor
  · by_cases h : q = (Statement.jsToInt32 q : ℚ)
    · simp [Statement.bindNumber, Statement.takePos, Statement.handleError, boundCell,
        sqlite3_bind_int, sqlite3_bind_double, World.bindCell, World.updateStmt, s1, w1,
        sqlite3_errmsg, SQLITE_OK, SQLITE_RANGE, SQLITE_MISUSE, List.lookup, if_pos h]
    · simp [Statement.bindNumber, Statement.takePos, Statement.handleError, boundCell,
        sqlite3_bind_int, sqlite3_bind_double, World.bindCell, World.updateStmt, s1, w1,
        sqlite3_errmsg, SQLITE_OK, SQLITE_RANGE, SQLITE_MISUSE, List.lookup, if_neg h]
  · constructor
    · intro h
      exact ⟨Statement.jsToInt32 q, h, (jsToInt32_range q).1, (jsToInt32_range q).2⟩
    · rintro ⟨n, rfl, h1, h2⟩
      rw [jsToInt32_intCast n h1 h2]

/-! ### Claim C9: surfacing of engine bind failures -/

/-- Claim C9 counterexample: binding NULL at slot 2 of a one-parameter
statement makes the engine's blob bind primitive fail with SQLITE_RANGE,
yet `bindNull` reports this silently as the boolean return false instead
of raising a BindError as the claim demands for every value kind. -/
theorem bindNull_silent_failure_counterexample :
    (sqlite3_bind_blob w1 s1.stmt 2 0 0).1 = SQLITE_RANGE ∧
    (Statement.bindNull s1 w1 (some 2)).1 = .ok false := ⟨rfl, rfl⟩

/-- Claim C9 amended: a non-success status from the engine's bind
primitive is raised as an error carrying the engine's diagnostic text for
number, string, and blob binds, but `bindNull` reports it only through
its boolean return value. -/
theorem bind_error_reporting (q : ℚ) (cps bs : List Nat) (pos : Nat)
    (hpos : pos < 1 ∨ 1 < pos) :
    (Statement.bindNumber s1 w1 q (some pos)).1 = .error "column index out of range" ∧
    (Statement.bindString s1 w1 cps (some pos)).1 = .error "column index out of range" ∧
    (Statement.bindBlob s1 w1 bs (some pos)).1 = .error "column index out of range" ∧
    (Statement.bindNull s1 w1 (some pos)).1 = .ok false := by
  have hrange : ∀ (w : World) (cell : SqlCell), w.stmts = w1.stmts →
      World.bindCell w 1 pos cell =
        (SQLITE_RANGE, { w with errmsg := "column index out of range" }) := by
    intro w cell hw
    simp [World.bindCell, hw, w1, List.lookup]
    intro h1 h2
    exact (show False by omega).elim
  refine ⟨?_, ?_, ?_, ?_⟩
  · by_cases h : q = (Statement.jsToInt32 q : ℚ)
    · simp [Statement.bindNumber, Statement.takePos, Statement.handleError, sqlite3_bind_int,
        s1, hrange w1 _ rfl, sqlite3_errmsg, SQLITE_OK, SQLITE_RANGE, if_pos h]
    · simp [Statement.bindNumber, Statement.takePos, Statement.handleError, sqlite3_bind_double,
        s1, hrange w1 _ rfl, sqlite3_errmsg, SQLITE_OK, SQLITE_RANGE, if_neg h]
  · simp [Statement.bindString, Statement.takePos, Statement.handleError, sqlite3_bind_text,
      s1, hrange, sqlite3_errmsg, SQLITE_OK, SQLITE_RANGE]
  · simp [Statement.bindBlob, Statement.takePos, Statement.handleError, sqlite3_bind_blob,
      s1, hrange, sqlite3_errmsg, SQLITE_OK, SQLITE_RANGE]
  · simp [Statement.bindNull, Statement.takePos, sqlite3_bind_blob, s1,
      hrange w1 _ rfl, SQLITE_OK, SQLITE_RANGE]

/-- Witness for C9 amended at the concrete out-of-range slot 2. -/
theorem bind_error_reporting_witness :
    ((2 : Nat) < 1 ∨ 1 < (2 : Nat)) ∧
    (Statement.bindNumber s1 w1 3 (some 2)).1 = .error "column index out of range" :=
  ⟨Or.inr (by norm_num), (bind_error_reporting 3 [] [] 2 (Or.inr (by norm_num))).1⟩

/-! ### Claim C10: the bind/read cursor discipline -/

theorem bindString_pos (s : StmtObj) (w : World) (cps : List Nat) (p : Nat) :
    (Statement.bindString s w cps (some p)).2.1.pos = s.pos := by
  unfold Statement.bindString
  dsimp only
  split <;> rfl

theorem bindBlob_pos (s : StmtObj) (w : World) (bs : List Nat) (p : Nat) :
    (Statement.bindBlob s w bs (some p)).2.1.pos = s.pos := by
  unfold Statement.bindBlob
  dsimp only
  split <;> rfl

theorem bindNumber_pos (s : StmtObj) (w : World) (q : ℚ) (p : Nat) :
    (Statement.bindNumber s w q (some p)).2.1.pos = s.pos := by
  unfold Statement.bindNumber
  dsimp only
  split <;> split <;> rfl

theorem bindNull_pos (s : StmtObj) (w : World) (p : Nat) :
    (Statement.bindNull s w (some p)).2.1.pos = s.pos := rfl

theorem bindValue_pos (s : StmtObj) (w : World) (v : JSValue) (p : Nat) :
    (Statement.bindValue s w v (some p)).2.1.pos = s.pos := by
  cases v with
  | vstr cps => exact bindString_pos s w cps p
  | vnum q => exact bindNumber_pos s w q p
  | vbool b => exact bindNumber_pos s w _ p
  | vnull => exact bindNull_pos s w p
  | vblob bs => exact bindBlob_pos s w bs p
  | vundef => rfl
  | vobj d => rfl

theorem bindFromArrayAux_pos (l : List JSValue) (s : StmtObj) (w : World) (n : Nat) :
    (Statement.bindFromArrayAux s w l n).2.1.pos = s.pos := by
  induction l generalizing s w n with
  | nil => rfl
  | cons v rest ih =>
    show (match Statement.bindValue s w v (some (n + 1)) with
      | (.error m, s1, w1) => ((Except.error m : Except String Bool), s1, w1)
      | (.ok _, s1, w1) => Statement.bindFromArrayAux s1 w1 rest (n + 1)).2.1.pos = s.pos
    have hbv := bindValue_pos s w v (n + 1)
    rcases hb : Statement.bindValue s w v (some (n + 1)) with ⟨r, s1, w1⟩
    rw [hb] at hbv
    cases r with
    | error m => simpa using hbv
    | ok b => simpa [ih] using hbv

theorem bindFromObjectAux_pos (l : List (String × JSValue)) (s : StmtObj) (w : World) :
    (Statement.bindFromObjectAux s w l).2.1.pos = s.pos := by
  induction l generalizing s w with
  | nil => rfl
  | cons kv rest ih =>
    show (if sqlite3_bind_parameter_index w s.stmt kv.1 ≠ 0 then
        match Statement.bindValue s w kv.2 (some (sqlite3_bind_parameter_index w s.stmt kv.1)) with
        | (.error m, s1, w1) => ((Except.error m : Except String Bool), s1, w1)
        | (.ok _, s1, w1) => Statement.bindFromObjectAux s1 w1 rest
      else Statement.bindFromObjectAux s w rest).2.1.pos = s.pos
    by_cases hn : sqlite3_bind_parameter_index w s.stmt kv.1 ≠ 0
    · rw [if_pos hn]
      have hbv := bindValue_pos s w kv.2 (sqlite3_bind_parameter_index w s.stmt kv.1)
      rcases hb : Statement.bindValue s w kv.2
          (some (sqlite3_bind_parameter_index w s.stmt kv.1)) with ⟨r, s1, w1⟩
      rw [hb] at hbv
      cases r with
      | error m => simpa using hbv
      | ok b => simpa [ih] using hbv
    · rw [if_neg hn]
      exact ih s w

theorem reset_pos (s : StmtObj) (w : World) :
    (Statement.reset s w).2.1.pos = s.pos := by
  unfold Statement.reset Statement.freemem
  dsimp only
  split <;> rfl

/-- Claim C10 counterexample: a statement whose cursor stands at 2 (after
a cursor-advancing `bindValue`) keeps `pos = 2` through a subsequent
`bind` call, refuting the claim that `bind` resets `pos` to 1 at its
start (nothing later in `bind` writes `pos`). -/
theorem bind_leaves_pos_counterexample :
    (Statement.bindValue s1 w1 (.vnum 5) none).2.1.pos = 2 ∧
    ((Statement.bind (Statement.bindValue s1 w1 (.vnum 5) none).2.1
        (Statement.bindValue s1 w1 (.vnum 5) none).2.2 (some (.arr [.vnum 7]))).2.1).pos = 2 ∧
    ((Statement.bind (Statement.bindValue s1 w1 (.vnum 5) none).2.1
        (Statement.bindValue s1 w1 (.vnum 5) none).2.2 (some (.arr [.vnum 7]))).2.1).pos ≠ 1 := by
  refine ⟨rfl, rfl, ?_⟩
  intro h
  exact Nat.noConfusion (Nat.succ.inj (show (2 : Nat) = 1 from h))

/-- Claim C10 amended: the 1-based cursor `pos` is reset to 1 at the
start of every `step` call on a non-finalized statement; `bind` never
modifies `pos` (its binders always pass explicit slot indices). -/
theorem pos_reset_on_step_not_bind :
    (∀ (s : StmtObj) (w : World), s.stmt ≠ 0 → ((Statement.step s w).2.1).pos = 1) ∧
    (∀ (s : StmtObj) (w : World) (values : Option BindParams),
      ((Statement.bind s w values).2.1).pos = s.pos) := by
  constructor
  · intro s w hs
    unfold Statement.step
    rw [if_neg hs]
    dsimp only
    split
    · rfl
    · split <;> rfl
  · intro s w values
    unfold Statement.bind
    by_cases hs : s.stmt = 0
    · rw [if_pos hs]
    · rw [if_neg hs]
      have hr := reset_pos s w
      cases values with
      | none => simpa using hr
      | some p =>
        cases p with
        | arr vs => simpa [Statement.bindFromArray, bindFromArrayAux_pos] using hr
        | obj kvs => simpa [Statement.bindFromObject, bindFromObjectAux_pos] using hr

/-- Witness for C10 amended on the concrete live scenario statement. -/
theorem pos_reset_on_step_not_bind_witness :
    s1.stmt ≠ 0 ∧ ((Statement.step s1 w1).2.1).pos = 1 :=
  ⟨by decide, (pos_reset_on_step_not_bind).1 s1 w1 (by decide)⟩

/-! ### Claim C2: the buffer arena discipline -/


theorem foldl_freeAddr_spec (l : List Nat) (h : Heap) (hnd : l.Nodup)
    (hlive : ∀ a ∈ l, a ∈ h.live) (hwf : h.wf) :
    (l.foldl Heap.freeAddr h).freeErrors = h.freeErrors ∧
    (l.foldl Heap.freeAddr h).live.length + l.length = h.live.length ∧
    (l.foldl Heap.freeAddr h).wf ∧
    (l.foldl Heap.freeAddr h).nextAddr = h.nextAddr ∧
    ∀ a ∈ (l.foldl Heap.freeAddr h).live, a ∈ h.live := by
  induction l generalizing h with
  | nil => exact ⟨rfl, by simp, hwf, rfl, fun a ha => ha⟩
  | cons a rest ih =>
    have ha : a ∈ h.live := hlive a (List.mem_cons_self a rest)
    have hstep : Heap.freeAddr h a = { h with live := h.live.erase a } := by
      simp [Heap.freeAddr, ha]
    obtain ⟨hnodup, hbound⟩ := hwf
    have hnd' : rest.Nodup := (List.nodup_cons.mp hnd).2
    have hanotin : a ∉ rest := (List.nodup_cons.mp hnd).1
    have hwf' : ({ h with live := h.live.erase a } : Heap).wf :=
      ⟨hnodup.erase a, fun b hb => hbound b (List.mem_of_mem_erase hb)⟩
    have hlive' : ∀ b ∈ rest, b ∈ h.live.erase a := by
      intro b hb
      have hba : b ≠ a := fun hba => hanotin (hba ▸ hb)
      exact (List.mem_erase_of_ne hba).mpr (hlive b (List.mem_cons_of_mem a hb))
    have := ih { h with live := h.live.erase a } hnd' hlive' hwf'
    obtain ⟨e1, e2, e3, e4, e5⟩ := this
    rw [List.foldl_cons, hstep]
    refine ⟨e1, ?_, e3, e4, fun b hb => List.mem_of_mem_erase (e5 b hb)⟩
    have hlen : (h.live.erase a).length + 1 = h.live.length := List.length_erase_add_one ha
    have e2' : (rest.foldl Heap.freeAddr { h with live := h.live.erase a }).live.length
        + rest.length = (h.live.erase a).length := e2
    simp only [List.length_cons]
    omega

theorem freemem_spec (s : StmtObj) (w : World) (hinv : arenaInv s w) :
    (Statement.freemem s w).1.allocatedmem = [] ∧
    (Statement.freemem s w).2.heap.freeErrors = w.heap.freeErrors ∧
    (Statement.freemem s w).2.heap.live.length + s.allocatedmem.length = w.heap.live.length ∧
    (Statement.freemem s w).2.heap.wf ∧
    (Statement.freemem s w).2.heap.nextAddr = w.heap.nextAddr ∧
    ∀ a ∈ (Statement.freemem s w).2.heap.live, a ∈ w.heap.live := by
  obtain ⟨hwf, hnd, hmem⟩ := hinv
  have := foldl_freeAddr_spec s.allocatedmem.reverse w.heap (by simpa using hnd)
    (by intro a ha; exact hmem a (List.mem_reverse.mp ha)) hwf
  obtain ⟨e1, e2, e3, e4, e5⟩ := this
  rw [List.length_reverse] at e2
  exact ⟨rfl, e1, e2, e3, e4, e5⟩


theorem arenaInv_transfer (s s' : StmtObj) (w w' : World) (h : arenaInv s w)
    (hh : w'.heap = w.heap) (hm : s'.allocatedmem = s.allocatedmem) : arenaInv s' w' := by
  unfold arenaInv at h ⊢
  rw [hh, hm]
  exact h

theorem bindCell_heap (w : World) (hnd pos : Nat) (cell : SqlCell) :
    (World.bindCell w hnd pos cell).2.heap = w.heap := by
  unfold World.bindCell World.updateStmt
  split
  · rfl
  · split <;> rfl

theorem sqlite3_step_heap (w : World) (hnd : Nat) :
    (sqlite3_step w hnd).2.heap = w.heap := by
  unfold sqlite3_step World.updateStmt
  split
  · rfl
  · split
    · split <;> rfl
    · rfl

theorem clear_bindings_heap (w : World) (hnd : Nat) :
    (sqlite3_clear_bindings w hnd).2.heap = w.heap := by
  unfold sqlite3_clear_bindings World.updateStmt
  split <;> rfl

theorem sqlite3_reset_heap (w : World) (hnd : Nat) :
    (sqlite3_reset w hnd).2.heap = w.heap := by
  unfold sqlite3_reset World.updateStmt
  split <;> rfl

theorem sqlite3_finalize_heap (w : World) (hnd : Nat) :
    (sqlite3_finalize w hnd).2.heap = w.heap := by
  unfold sqlite3_finalize
  split <;> rfl

theorem allocate_fresh (h : Heap) (l : List Nat) (hwf : h.wf) :
    ((h.allocate l).2).wf ∧ (h.allocate l).1 ∉ h.live ∧
    (h.allocate l).1 ∈ (h.allocate l).2.live ∧ ∀ a ∈ h.live, a ∈ (h.allocate l).2.live := by
  obtain ⟨hnd, hb⟩ := hwf
  have hfresh : h.nextAddr ∉ h.live := fun hmem => absurd (hb _ hmem) (lt_irrefl _)
  refine ⟨⟨List.nodup_cons.mpr ⟨hfresh, hnd⟩, ?_⟩, hfresh, List.mem_cons_self _ _,
    fun a ha => List.mem_cons_of_mem _ ha⟩
  intro a ha
  rcases List.mem_cons.mp ha with h1 | h1
  · subst h1
    simp [Heap.allocate]
    omega
  · have := hb _ h1
    simp [Heap.allocate]
    omega


theorem bind_text_heap (w : World) (hnd p ptr len : Nat) :
    (sqlite3_bind_text w hnd p ptr len).2.heap = w.heap := by
  unfold sqlite3_bind_text
  exact bindCell_heap _ _ _ _

theorem bind_blob_heap (w : World) (hnd p ptr len : Nat) :
    (sqlite3_bind_blob w hnd p ptr len).2.heap = w.heap := by
  unfold sqlite3_bind_blob
  exact bindCell_heap _ _ _ _

theorem bind_int_heap (w : World) (hnd p : Nat) (i : ℤ) :
    (sqlite3_bind_int w hnd p i).2.heap = w.heap := by
  unfold sqlite3_bind_int
  exact bindCell_heap _ _ _ _

theorem bind_double_heap (w : World) (hnd p : Nat) (q : ℚ) :
    (sqlite3_bind_double w hnd p q).2.heap = w.heap := by
  unfold sqlite3_bind_double
  exact bindCell_heap _ _ _ _

theorem bindString_effect (s : StmtObj) (w : World) (cps : List Nat) (pos? : Option Nat) :
    (Statement.bindString s w cps pos?).2.1.allocatedmem
      = s.allocatedmem ++ [(w.heap.allocate (intArrayFromString cps)).1] ∧
    (Statement.bindString s w cps pos?).2.2.heap
      = (w.heap.allocate (intArrayFromString cps)).2 := by
  cases pos? with
  | none =>
    unfold Statement.bindString
    dsimp only [Statement.takePos]
    split <;> exact ⟨rfl, by rw [bind_text_heap]⟩
  | some p =>
    unfold Statement.bindString
    dsimp only [Statement.takePos]
    split <;> exact ⟨rfl, by rw [bind_text_heap]⟩

theorem bindBlob_effect (s : StmtObj) (w : World) (bs : List Nat) (pos? : Option Nat) :
    (Statement.bindBlob s w bs pos?).2.1.allocatedmem
      = s.allocatedmem ++ [(w.heap.allocate bs).1] ∧
    (Statement.bindBlob s w bs pos?).2.2.heap = (w.heap.allocate bs).2 := by
  cases pos? with
  | none =>
    unfold Statement.bindBlob
    dsimp only [Statement.takePos]
    split <;> exact ⟨rfl, by rw [bind_blob_heap]⟩
  | some p =>
    unfold Statement.bindBlob
    dsimp only [Statement.takePos]
    split <;> exact ⟨rfl, by rw [bind_blob_heap]⟩

theorem bindNumber_effect (s : StmtObj) (w : World) (q : ℚ) (pos? : Option Nat) :
    (Statement.bindNumber s w q pos?).2.1.allocatedmem = s.allocatedmem ∧
    (Statement.bindNumber s w q pos?).2.2.heap = w.heap := by
  cases pos? with
  | none =>
    unfold Statement.bindNumber
    dsimp only [Statement.takePos]
    split <;> split <;>
      first
        | exact ⟨rfl, by rw [bind_int_heap]⟩
        | exact ⟨rfl, by rw [bind_double_heap]⟩
  | some p =>
    unfold Statement.bindNumber
    dsimp only [Statement.takePos]
    split <;> split <;>
      first
        | exact ⟨rfl, by rw [bind_int_heap]⟩
        | exact ⟨rfl, by rw [bind_double_heap]⟩

theorem bindNull_effect (s : StmtObj) (w : World) (pos? : Option Nat) :
    (Statement.bindNull s w pos?).2.1.allocatedmem = s.allocatedmem ∧
    (Statement.bindNull s w pos?).2.2.heap = w.heap := by
  cases pos? with
  | none => exact ⟨rfl, by rw [show (Statement.bindNull s w none).2.2 = (sqlite3_bind_blob w s.stmt s.pos 0 0).2 from rfl, bind_blob_heap]⟩
  | some p => exact ⟨rfl, by rw [show (Statement.bindNull s w (some p)).2.2 = (sqlite3_bind_blob w s.stmt p 0 0).2 from rfl, bind_blob_heap]⟩


theorem arena_allocPush (s s' : StmtObj) (w w' : World) (l : List Nat)
    (hinv : arenaInv s w)
    (hm : s'.allocatedmem = s.allocatedmem ++ [(w.heap.allocate l).1])
    (hh : w'.heap = (w.heap.allocate l).2) : arenaInv s' w' := by
  obtain ⟨hwf, hnd, hmem⟩ := hinv
  obtain ⟨hwf', hfresh, hin, hsub⟩ := allocate_fresh w.heap l hwf
  refine ⟨by rw [hh]; exact hwf', ?_, ?_⟩
  · rw [hm]
    refine List.nodup_append.mpr ⟨hnd, List.nodup_singleton _, ?_⟩
    intro a ha hb
    rw [List.mem_singleton] at hb
    subst hb
    exact hfresh (hmem _ ha)
  · intro a ha
    rw [hm] at ha
    rw [hh]
    rcases List.mem_append.mp ha with h1 | h1
    · exact hsub _ (hmem _ h1)
    · rw [List.mem_singleton] at h1
      subst h1
      exact hin

theorem arena_bindString (s : StmtObj) (w : World) (cps : List Nat) (pos? : Option Nat)
    (hinv : arenaInv s w) :
    arenaInv (Statement.bindString s w cps pos?).2.1 (Statement.bindString s w cps pos?).2.2 :=
  arena_allocPush s _ w _ (intArrayFromString cps) hinv
    (bindString_effect s w cps pos?).1 (bindString_effect s w cps pos?).2

theorem arena_bindBlob (s : StmtObj) (w : World) (bs : List Nat) (pos? : Option Nat)
    (hinv : arenaInv s w) :
    arenaInv (Statement.bindBlob s w bs pos?).2.1 (Statement.bindBlob s w bs pos?).2.2 :=
  arena_allocPush s _ w _ bs hinv (bindBlob_effect s w bs pos?).1 (bindBlob_effect s w bs pos?).2

theorem arena_bindValue (s : StmtObj) (w : World) (v : JSValue) (pos? : Option Nat)
    (hinv : arenaInv s w) :
    arenaInv (Statement.bindValue s w v pos?).2.1 (Statement.bindValue s w v pos?).2.2 := by
  cases pos? with
  | none =>
    cases v with
    | vstr cps => exact arena_bindString _ _ cps _ hinv
    | vblob bs => exact arena_bindBlob _ _ bs _ hinv
    | vnum q => exact arenaInv_transfer s _ w _ hinv (bindNumber_effect _ _ q _).2 (bindNumber_effect _ _ q _).1
    | vbool b => exact arenaInv_transfer s _ w _ hinv (bindNumber_effect _ _ _ _).2 (bindNumber_effect _ _ _ _).1
    | vnull => exact arenaInv_transfer s _ w _ hinv (bindNull_effect _ _ _).2 (bindNull_effect _ _ _).1
    | vundef => exact arenaInv_transfer s _ w _ hinv rfl rfl
    | vobj d => exact arenaInv_transfer s _ w _ hinv rfl rfl
  | some p =>
    cases v with
    | vstr cps => exact arena_bindString _ _ cps _ hinv
    | vblob bs => exact arena_bindBlob _ _ bs _ hinv
    | vnum q => exact arenaInv_transfer s _ w _ hinv (bindNumber_effect _ _ q _).2 (bindNumber_effect _ _ q _).1
    | vbool b => exact arenaInv_transfer s _ w _ hinv (bindNumber_effect _ _ _ _).2 (bindNumber_effect _ _ _ _).1
    | vnull => exact arenaInv_transfer s _ w _ hinv (bindNull_effect _ _ _).2 (bindNull_effect _ _ _).1
    | vundef => exact arenaInv_transfer s _ w _ hinv rfl rfl
    | vobj d => exact arenaInv_transfer s _ w _ hinv rfl rfl


theorem arena_bindFromArrayAux (l : List JSValue) (s : StmtObj) (w : World) (n : Nat)
    (hinv : arenaInv s w) :
    arenaInv (Statement.bindFromArrayAux s w l n).2.1 (Statement.bindFromArrayAux s w l n).2.2 := by
  induction l generalizing s w n with
  | nil => exact hinv
  | cons v rest ih =>
    show arenaInv (match Statement.bindValue s w v (some (n + 1)) with
      | (.error m, s1, w1) => ((Except.error m : Except String Bool), s1, w1)
      | (.ok _, s1, w1) => Statement.bindFromArrayAux s1 w1 rest (n + 1)).2.1
      (match Statement.bindValue s w v (some (n + 1)) with
      | (.error m, s1, w1) => ((Except.error m : Except String Bool), s1, w1)
      | (.ok _, s1, w1) => Statement.bindFromArrayAux s1 w1 rest (n + 1)).2.2
    have hbv := arena_bindValue s w v (some (n + 1)) hinv
    rcases hb : Statement.bindValue s w v (some (n + 1)) with ⟨r, s1, w1⟩
    rw [hb] at hbv
    cases r with
    | error m => exact hbv
    | ok b => exact ih s1 w1 (n + 1) hbv

theorem arena_bindFromObjectAux (l : List (String × JSValue)) (s : StmtObj) (w : World)
    (hinv : arenaInv s w) :
    arenaInv (Statement.bindFromObjectAux s w l).2.1 (Statement.bindFromObjectAux s w l).2.2 := by
  induction l generalizing s w with
  | nil => exact hinv
  | cons kv rest ih =>
    have heq : Statement.bindFromObjectAux s w (kv :: rest) =
        (if sqlite3_bind_parameter_index w s.stmt kv.1 ≠ 0 then
          match Statement.bindValue s w kv.2 (some (sqlite3_bind_parameter_index w s.stmt kv.1)) with
          | (.error m, s1, w1) => ((Except.error m : Except String Bool), s1, w1)
          | (.ok _, s1, w1) => Statement.bindFromObjectAux s1 w1 rest
        else Statement.bindFromObjectAux s w rest) := rfl
    rw [heq]
    by_cases hn : sqlite3_bind_parameter_index w s.stmt kv.1 ≠ 0
    · rw [if_pos hn]
      have hbv := arena_bindValue s w kv.2 (some (sqlite3_bind_parameter_index w s.stmt kv.1)) hinv
      rcases hb : Statement.bindValue s w kv.2
          (some (sqlite3_bind_parameter_index w s.stmt kv.1)) with ⟨r, s1, w1⟩
      rw [hb] at hbv
      cases r with
      | error m => exact hbv
      | ok b => exact ih s1 w1 hbv
    · rw [if_neg hn]
      exact ih s w hinv

theorem arena_freemem (s : StmtObj) (w : World) (hinv : arenaInv s w) :
    arenaInv (Statement.freemem s w).1 (Statement.freemem s w).2 := by
  obtain ⟨e1, e2, e3, e4, e5, e6⟩ := freemem_spec s w hinv
  refine ⟨e4, ?_, ?_⟩
  · rw [e1]
    exact List.nodup_nil
  · intro a ha
    rw [e1] at ha
    exact absurd ha (List.not_mem_nil a)

theorem arena_reset (s : StmtObj) (w : World) (hinv : arenaInv s w) :
    arenaInv (Statement.reset s w).2.1 (Statement.reset s w).2.2 := by
  have hfm := arena_freemem s w hinv
  unfold Statement.reset
  dsimp only
  split
  · exact arenaInv_transfer _ _ _ _ hfm
      (by rw [sqlite3_reset_heap, clear_bindings_heap]) rfl
  · exact arenaInv_transfer _ _ _ _ hfm (by rw [clear_bindings_heap]) rfl

theorem arena_bind (s : StmtObj) (w : World) (values : Option BindParams)
    (hinv : arenaInv s w) :
    arenaInv (Statement.bind s w values).2.1 (Statement.bind s w values).2.2 := by
  unfold Statement.bind
  by_cases hs : s.stmt = 0
  · rw [if_pos hs]
    exact hinv
  · rw [if_neg hs]
    have hr := arena_reset s w hinv
    cases values with
    | none => exact hr
    | some p =>
      cases p with
      | arr vs => exact arena_bindFromArrayAux vs _ _ 0 hr
      | obj kvs => exact arena_bindFromObjectAux kvs _ _ hr

theorem arena_step (s : StmtObj) (w : World) (hinv : arenaInv s w) :
    arenaInv (Statement.step s w).2.1 (Statement.step s w).2.2 := by
  unfold Statement.step
  by_cases hs : s.stmt = 0
  · rw [if_pos hs]
    exact hinv
  · rw [if_neg hs]
    dsimp only
    split
    · exact arenaInv_transfer _ _ _ _ hinv (sqlite3_step_heap w _) rfl
    · split <;> exact arenaInv_transfer _ _ _ _ hinv (sqlite3_step_heap w _) rfl

theorem getLoop_state (l : List Nat) (s : StmtObj) (w : World) :
    (Statement.getLoop s w l).2 = s := by
  induction l generalizing s with
  | nil => rfl
  | cons field rest ih =>
    show (let t := sqlite3_column_type w s.stmt field
      let vs1 : JSValue × StmtObj :=
        if t = SQLITE_INTEGER ∨ t = SQLITE_FLOAT then
          let ns := Statement.getNumber s w (some field); (.vnum ns.1, ns.2)
        else if t = SQLITE3_TEXT then
          let cs := Statement.getString s w (some field); (.vstr cs.1, cs.2)
        else if t = SQLITE_BLOB then
          let bs1 := Statement.getBlob s w (some field); (.vblob bs1.1, bs1.2)
        else (.vnull, s)
      let rest1 := Statement.getLoop vs1.2 w rest
      (vs1.1 :: rest1.1, rest1.2)).2 = s
    dsimp only
    split
    · exact ih s
    · split
      · exact ih s
      · split
        · exact ih s
        · exact ih s

theorem arena_get (s : StmtObj) (w : World) (params : Option BindParams)
    (hinv : arenaInv s w) :
    arenaInv (Statement.get s w params).2.1 (Statement.get s w params).2.2 := by
  cases params with
  | none =>
    exact arenaInv_transfer s _ w _ hinv rfl
      (congrArg StmtObj.allocatedmem (getLoop_state _ s w))
  | some p =>
    have heq : Statement.get s w (some p) =
        (match Statement.bind s w (some p) with
         | (.error m, s1, w1) => ((Except.error m : Except String (List JSValue)), s1, w1)
         | (.ok b, s1, w1) =>
           if b then
             match Statement.step s1 w1 with
             | (.error m, s2, w2) => (.error m, s2, w2)
             | (.ok _, s2, w2) =>
               let g := Statement.getLoop s2 w2 (List.range (sqlite3_data_count w2 s2.stmt))
               (.ok g.1, g.2, w2)
           else
             let g := Statement.getLoop s1 w1 (List.range (sqlite3_data_count w1 s1.stmt))
             (.ok g.1, g.2, w1)) := rfl
    rw [heq]
    have hb := arena_bind s w (some p) hinv
    rcases hbind : Statement.bind s w (some p) with ⟨r, s1, w1⟩
    rw [hbind] at hb
    dsimp only at hb ⊢
    cases r with
    | error m => exact hb
    | ok b =>
      dsimp only
      cases b with
      | true =>
        rw [if_pos rfl]
        have hs := arena_step s1 w1 hb
        rcases hstep : Statement.step s1 w1 with ⟨r2, s2, w2⟩
        rw [hstep] at hs
        dsimp only at hs ⊢
        cases r2 with
        | error m => exact hs
        | ok b2 =>
          dsimp only
          exact arenaInv_transfer s2 _ w2 _ hs rfl
            (congrArg StmtObj.allocatedmem (getLoop_state _ s2 w2))
      | false =>
        rw [if_neg Bool.false_ne_true]
        dsimp only
        exact arenaInv_transfer s1 _ w1 _ hb rfl
          (congrArg StmtObj.allocatedmem (getLoop_state _ s1 w1))

theorem arena_run (s : StmtObj) (w : World) (values : Option BindParams)
    (hinv : arenaInv s w) :
    arenaInv (Statement.run s w values).2.1 (Statement.run s w values).2.2 := by
  cases values with
  | none =>
    have heq : Statement.run s w none =
        (match Statement.step s w with
        | (.error m, s1, w1) => ((Except.error m : Except String Bool), s1, w1)
        | (.ok _, s1, w1) =>
          let r := Statement.reset s1 w1
          (.ok r.1, r.2.1, r.2.2)) := rfl
    rw [heq]
    have hs := arena_step s w hinv
    rcases hstep : Statement.step s w with ⟨r, s1, w1⟩
    rw [hstep] at hs
    dsimp only at hs ⊢
    cases r with
    | error m => exact hs
    | ok b => exact arena_reset s1 w1 hs
  | some p =>
    have heq : Statement.run s w (some p) =
        (match Statement.bind s w (some p) with
        | (.error m, s1, w1) => ((Except.error m : Except String Bool), s1, w1)
        | (.ok _, s1, w1) =>
          match Statement.step s1 w1 with
          | (.error m, s2, w2) => (.error m, s2, w2)
          | (.ok _, s2, w2) =>
            let r := Statement.reset s2 w2
            (.ok r.1, r.2.1, r.2.2)) := rfl
    rw [heq]
    have hb := arena_bind s w (some p) hinv
    rcases hbind : Statement.bind s w (some p) with ⟨r, s1, w1⟩
    rw [hbind] at hb
    dsimp only at hb ⊢
    cases r with
    | error m => exact hb
    | ok b =>
      dsimp only
      have hs := arena_step s1 w1 hb
      rcases hstep : Statement.step s1 w1 with ⟨r2, s2, w2⟩
      rw [hstep] at hs
      dsimp only at hs ⊢
      cases r2 with
      | error m => exact hs
      | ok b2 => exact arena_reset s2 w2 hs

theorem arena_free (s : StmtObj) (w : World) (hinv : arenaInv s w) :
    arenaInv (Statement.free s w).2.1 (Statement.free s w).2.2 := by
  have hfm := arena_freemem s w hinv
  exact arenaInv_transfer _ _ _ _ hfm
    (by dsimp only [Statement.free]; rw [sqlite3_finalize_heap]) rfl



theorem arena_applyOp (sw : StmtObj × World) (op : StOp) (hinv : arenaInv sw.1 sw.2) :
    arenaInv (applyOp sw op).1 (applyOp sw op).2 := by
  cases op with
  | opBind values => exact arena_bind sw.1 sw.2 values hinv
  | opBindValue v pos? => exact arena_bindValue sw.1 sw.2 v pos? hinv
  | opBindString cps pos? => exact arena_bindString sw.1 sw.2 cps pos? hinv
  | opBindBlob bs pos? => exact arena_bindBlob sw.1 sw.2 bs pos? hinv
  | opBindNumber q pos? =>
    exact arenaInv_transfer _ _ _ _ hinv (bindNumber_effect _ _ q _).2 (bindNumber_effect _ _ q _).1
  | opBindNull pos? =>
    exact arenaInv_transfer _ _ _ _ hinv (bindNull_effect _ _ _).2 (bindNull_effect _ _ _).1
  | opStep => exact arena_step sw.1 sw.2 hinv
  | opGet params => exact arena_get sw.1 sw.2 params hinv
  | opRun values => exact arena_run sw.1 sw.2 values hinv
  | opReset => exact arena_reset sw.1 sw.2 hinv
  | opFree => exact arena_free sw.1 sw.2 hinv

theorem arena_foldl (ops : List StOp) (sw : StmtObj × World) (hinv : arenaInv sw.1 sw.2) :
    arenaInv (ops.foldl applyOp sw).1 (ops.foldl applyOp sw).2 := by
  induction ops generalizing sw with
  | nil => exact hinv
  | cons op rest ih => exact ih (applyOp sw op) (arena_applyOp sw op hinv)

/-- Claim C2: along any sequence of statement operations from a freshly
constructed statement, the recorded buffer addresses stay pairwise
distinct and live (no address is recorded twice while live), and the
`freemem` sweep (invoked by reset, by bind via reset, and by free) frees
each recorded address exactly once — no free of a dead address ever
happens (`freeErrors` stays 0 throughout, so every free in the run hit a
live allocation exactly once) — and leaves the record empty. -/
theorem arena_frees_exactly_once (ops : List StOp) (s0 : StmtObj) (w0 : World)
    (hs0 : s0.allocatedmem = []) (hw0 : w0.heap.wf) :
    ((ops.foldl applyOp (s0, w0)).1.allocatedmem.Nodup ∧
      ∀ a ∈ (ops.foldl applyOp (s0, w0)).1.allocatedmem,
        a ∈ (ops.foldl applyOp (s0, w0)).2.heap.live) ∧
    (Statement.freemem (ops.foldl applyOp (s0, w0)).1
        (ops.foldl applyOp (s0, w0)).2).1.allocatedmem = [] ∧
    (Statement.freemem (ops.foldl applyOp (s0, w0)).1
        (ops.foldl applyOp (s0, w0)).2).2.heap.freeErrors
      = (ops.foldl applyOp (s0, w0)).2.heap.freeErrors ∧
    (Statement.freemem (ops.foldl applyOp (s0, w0)).1
        (ops.foldl applyOp (s0, w0)).2).2.heap.live.length
        + (ops.foldl applyOp (s0, w0)).1.allocatedmem.length
      = (ops.foldl applyOp (s0, w0)).2.heap.live.length := by
  have h0 : arenaInv s0 w0 := by
    refine ⟨hw0, ?_, ?_⟩
    · rw [hs0]
      exact List.nodup_nil
    · intro a ha
      rw [hs0] at ha
      exact absurd ha (List.not_mem_nil a)
  have hinv := arena_foldl ops (s0, w0) h0
  obtain ⟨e1, e2, e3, _, _, _⟩ := freemem_spec _ _ hinv
  exact ⟨⟨hinv.2.1, hinv.2.2⟩, e1, e2, e3⟩

/-- Witness for C2 on a concrete run that binds a string and a blob. -/
theorem arena_frees_exactly_once_witness :
    s1.allocatedmem = [] ∧ w1.heap.wf ∧
    (Statement.freemem
        (([.opBindString [104, 105] (some 1), .opBindBlob [1, 2, 3] (some 1)] :
            List StOp).foldl applyOp (s1, w1)).1
        (([.opBindString [104, 105] (some 1), .opBindBlob [1, 2, 3] (some 1)] :
            List StOp).foldl applyOp (s1, w1)).2).1.allocatedmem = [] :=
  ⟨rfl, ⟨List.nodup_nil, by intro a ha; exact absurd ha (List.not_mem_nil a)⟩,
   (arena_frees_exactly_once [.opBindString [104, 105] (some 1), .opBindBlob [1, 2, 3] (some 1)]
      s1 w1 rfl
      ⟨List.nodup_nil, by intro a ha; exact absurd ha (List.not_mem_nil a)⟩).2.1⟩



/-! ### Claims C4, C5, C6: Database.exec -/

theorem execGo_ok (params : Bool) (segs : List Seg)
    (hok : ∀ seg ∈ segs, Seg.ok params seg) (e : EngineB) (d : DbB) (stmtVar : Option Nat)
    (acc : List QueryResult) (snaps : List SnapB) :
    (execGo params segs e d stmtVar acc snaps).1 = .ok (acc ++ segs.filterMap Seg.entry) := by
  induction segs generalizing e d stmtVar acc snaps with
  | nil => simp [execGo]
  | cons seg rest ih =>
    have hs := hok seg (List.mem_cons_self seg rest)
    have hrest : ∀ s ∈ rest, Seg.ok params s := fun s hmem => hok s (List.mem_cons_of_mem seg hmem)
    cases seg with
    | empty =>
      rw [execGo]
      simpa [Seg.entry] using ih hrest e d stmtVar acc snaps
    | prepErr msg => exact absurd hs (by simp [Seg.ok])
    | good spec =>
      obtain ⟨hbind, hstep⟩ := hs
      rw [execGo]
      dsimp only
      have hbindnone : (if params then spec.bindErr else none) = none := by
        cases params with
        | false => rfl
        | true => simpa using hbind rfl
      rw [hbindnone, hstep]
      dsimp only
      rw [ih hrest _ _ _ _ _]
      cases hrows : spec.rows.isEmpty with
      | true =>
        simp [Seg.entry, hrows]
      | false =>
        simp [Seg.entry, hrows]

/-- Claim C5: exec over a multi-statement SQL text returns one
`{columns, values}` entry per statement that produced at least one row,
in source-statement order; a statement producing zero rows contributes
no entry. -/
theorem exec_results_in_source_order (segs : List Seg) (params : Bool) (e : EngineB) (d : DbB)
    (hopen : d.dbOpen = true) (hok : ∀ seg ∈ segs, Seg.ok params seg) :
    (execB segs params e d).1 = .ok (segs.filterMap Seg.entry) := by
  unfold execB
  rw [if_neg (by simp [hopen])]
  simpa using execGo_ok params segs hok e d none [] []

/-- Witness for C5 on the two-statement scenario "SELECT 1; SELECT 2;"
with a zero-row statement in between. -/
theorem exec_results_in_source_order_witness :
    (({ dbOpen := true, registry := [] } : DbB).dbOpen = true) ∧
    (execB [.good ⟨["1"], [[.vnum 1]], none, none⟩,
            .good ⟨["c"], [], none, none⟩,
            .good ⟨["2"], [[.vnum 2]], none, none⟩] false {} {}).1 =
      .ok [⟨["1"], [[.vnum 1]]⟩, ⟨["2"], [[.vnum 2]]⟩] :=
  ⟨rfl, exec_results_in_source_order
    [.good ⟨["1"], [[.vnum 1]], none, none⟩,
     .good ⟨["c"], [], none, none⟩,
     .good ⟨["2"], [[.vnum 2]], none, none⟩] false {} {} rfl
    (by intro seg hseg
        fin_cases hseg <;> exact ⟨fun h => rfl, rfl⟩)⟩


theorem execGo_live (params : Bool) (segs : List Seg) (e : EngineB) (d : DbB)
    (stmtVar : Option Nat) (acc : List QueryResult) (snaps : List SnapB)
    (hwf : EngineB.wf e d)
    (hstmt : ∀ h, stmtVar = some h → h ∉ e.live ∧ h ∉ d.registry) :
    (execGo params segs e d stmtVar acc snaps).2.1.live = e.live ∧
    (execGo params segs e d stmtVar acc snaps).2.2.1.registry = d.registry := by
  induction segs generalizing e d stmtVar acc snaps with
  | nil => exact ⟨rfl, rfl⟩
  | cons seg rest ih =>
    obtain ⟨hbound, hnd, hreg, hrnd⟩ := hwf
    cases seg with
    | empty =>
      rw [execGo.eq_def]
      dsimp only
      exact ih e d stmtVar acc snaps ⟨hbound, hnd, hreg, hrnd⟩ hstmt
    | prepErr msg =>
      rw [execGo.eq_def]
      cases stmtVar with
      | none => exact ⟨rfl, rfl⟩
      | some h =>
        dsimp only [freeB]
        exact ⟨List.erase_of_not_mem (hstmt h rfl).1,
          List.erase_of_not_mem (hstmt h rfl).2⟩
    | good spec =>
      rw [execGo.eq_def]
      dsimp only
      have hfresh : e.next ∉ e.live := fun hmem => absurd (hbound _ hmem).2 (lt_irrefl _)
      have hfreshreg : e.next ∉ d.registry := fun hmem => absurd (hreg _ hmem).2 (lt_irrefl _)
      have herase : (e.next :: e.live).erase e.next = e.live := List.erase_cons_head _ _
      have heraser : d.registry.erase e.next = d.registry := List.erase_of_not_mem hfreshreg
      cases hbe : (if params then spec.bindErr else none) with
      | some msg => exact ⟨by simp [freeB, herase], by simp [freeB, heraser]⟩
      | none =>
        cases hse : spec.stepErr with
        | some msg => exact ⟨by simp [freeB, herase], by simp [freeB, heraser]⟩
        | none =>
          have hwf1 : EngineB.wf ⟨(e.next :: e.live).erase e.next, e.next + 1⟩
              ({ d with registry := d.registry.erase e.next }) := by
            rw [herase, heraser]
            refine ⟨fun h hm => ⟨(hbound h hm).1,
                show h < e.next + 1 by have := (hbound h hm).2; omega⟩, hnd,
              fun k hk => ⟨(hreg k hk).1,
                show k < e.next + 1 by have := (hreg k hk).2; omega⟩, hrnd⟩
          have hstmt1 : ∀ h, (some 0 : Option Nat) = some h →
              h ∉ ((e.next :: e.live).erase e.next) ∧ h ∉ d.registry.erase e.next := by
            intro h hh
            cases hh
            rw [herase, heraser]
            exact ⟨fun hmem => absurd (hbound 0 hmem).1 (lt_irrefl 0),
              fun hmem => absurd (hreg 0 hmem).1 (lt_irrefl 0)⟩
          have hrec := ih { live := (e.next :: e.live).erase e.next, next := e.next + 1 }
            { d with registry := d.registry.erase e.next } (some 0)
            (if spec.rows.isEmpty then acc else acc ++ [⟨spec.cols, spec.rows⟩])
            (snaps ++ [⟨e.next, e.next :: e.live, d.registry⟩]) hwf1 hstmt1
          rw [herase, heraser] at hrec
          dsimp only [freeB]
          rw [herase, heraser]
          exact hrec


/-- Claim C6: exec never leaks an engine statement handle: whether it
returns results or re-raises an error (from prepare, bind, or step), the
engine's live-handle set afterwards is exactly what it was before — every
statement exec created was finalized before exec returned, the in-flight
one included — and the registry is untouched. -/
theorem exec_no_handle_leak (segs : List Seg) (params : Bool) (e : EngineB) (d : DbB)
    (hwf : EngineB.wf e d) :
    (execB segs params e d).2.1.live = e.live ∧
    (execB segs params e d).2.2.1.registry = d.registry := by
  unfold execB
  by_cases hopen : d.dbOpen = false
  · rw [if_pos hopen]
    exact ⟨rfl, rfl⟩
  · rw [if_neg hopen]
    exact execGo_live params segs e d none [] [] hwf (fun h hh => Option.noConfusion hh)

/-- Witness for C6 on a statement whose step fails mid-exec. -/
theorem exec_no_handle_leak_witness :
    EngineB.wf {} {} ∧
    (execB [.good ⟨["c"], [], none, some "UNIQUE constraint failed: test.c"⟩]
        false {} {}).1 = .error "UNIQUE constraint failed: test.c" ∧
    (execB [.good ⟨["c"], [], none, some "UNIQUE constraint failed: test.c"⟩]
        false {} {}).2.1.live = ({} : EngineB).live :=
  ⟨⟨by intro h hm; exact absurd hm (List.not_mem_nil h), List.nodup_nil,
     by intro k hk; exact absurd hk (List.not_mem_nil k), List.nodup_nil⟩,
   rfl,
   (exec_no_handle_leak [.good ⟨["c"], [], none, some "UNIQUE constraint failed: test.c"⟩]
      false {} {}
      ⟨by intro h hm; exact absurd hm (List.not_mem_nil h), List.nodup_nil,
       by intro k hk; exact absurd hk (List.not_mem_nil k), List.nodup_nil⟩).1⟩

theorem execGo_snaps (params : Bool) (segs : List Seg) (e : EngineB) (d : DbB)
    (stmtVar : Option Nat) (acc : List QueryResult) (snaps : List SnapB)
    (hwf : EngineB.wf e d)
    (hstmt : ∀ h, stmtVar = some h → h ∉ e.live ∧ h ∉ d.registry)
    (hsnaps : ∀ sn ∈ snaps, sn.handle ∉ sn.registry) :
    ∀ sn ∈ (execGo params segs e d stmtVar acc snaps).2.2.2, sn.handle ∉ sn.registry := by
  induction segs generalizing e d stmtVar acc snaps with
  | nil => exact hsnaps
  | cons seg rest ih =>
    obtain ⟨hbound, hnd, hreg, hrnd⟩ := hwf
    cases seg with
    | empty =>
      rw [execGo.eq_def]
      exact ih e d stmtVar acc snaps ⟨hbound, hnd, hreg, hrnd⟩ hstmt hsnaps
    | prepErr msg =>
      rw [execGo.eq_def]
      cases stmtVar with
      | none => exact hsnaps
      | some h => exact hsnaps
    | good spec =>
      rw [execGo.eq_def]
      dsimp only
      have hfreshreg : e.next ∉ d.registry := fun hmem => absurd (hreg _ hmem).2 (lt_irrefl _)
      have hsnaps1 : ∀ sn ∈ snaps ++ [(⟨e.next, e.next :: e.live, d.registry⟩ : SnapB)],
          sn.handle ∉ sn.registry := by
        intro sn hsn
        rcases List.mem_append.mp hsn with h1 | h1
        · exact hsnaps sn h1
        · rw [List.mem_singleton] at h1
          subst h1
          exact hfreshreg
      have herase : (e.next :: e.live).erase e.next = e.live := List.erase_cons_head _ _
      have heraser : d.registry.erase e.next = d.registry := List.erase_of_not_mem hfreshreg
      cases hbe : (if params then spec.bindErr else none) with
      | some msg => exact hsnaps1
      | none =>
        cases hse : spec.stepErr with
        | some msg => exact hsnaps1
        | none =>
          have hwf1 : EngineB.wf ⟨(e.next :: e.live).erase e.next, e.next + 1⟩
              ({ d with registry := d.registry.erase e.next }) := by
            rw [herase, heraser]
            refine ⟨fun h hm => ⟨(hbound h hm).1,
                show h < e.next + 1 by have := (hbound h hm).2; omega⟩, hnd,
              fun k hk => ⟨(hreg k hk).1,
                show k < e.next + 1 by have := (hreg k hk).2; omega⟩, hrnd⟩
          have hstmt1 : ∀ h, (some 0 : Option Nat) = some h →
              h ∉ ((e.next :: e.live).erase e.next) ∧ h ∉ d.registry.erase e.next := by
            intro h hh
            cases hh
            rw [herase, heraser]
            exact ⟨fun hmem => absurd (hbound 0 hmem).1 (lt_irrefl 0),
              fun hmem => absurd (hreg 0 hmem).1 (lt_irrefl 0)⟩
          exact ih _ _ (some 0) _ _ hwf1 hstmt1 hsnaps1

/-- Claim C4 counterexample: running exec on a single row-producing
statement over an empty registry records the snapshot taken right after
the internal `new Statement`: handle 1 is live but the registry is empty,
so the live statement exec created is not in the Connection's registry. -/
theorem exec_statement_not_registered_counterexample :
    (execB [.good ⟨["1"], [[.vnum 1]], none, none⟩] false {} {}).2.2.2 =
      [⟨1, [1], []⟩] ∧
    (1 ∈ [1]) ∧ ¬ (1 ∈ ([] : List Nat)) :=
  ⟨rfl, List.mem_singleton.mpr rfl, List.not_mem_nil 1⟩

/-- Claim C4 amended: a statement created by `Database.prepare` is
registered only once the optional params-bind has succeeded — the
registration follows `stmt.bind(params)`, so a prepare whose bind throws
leaves the statement live but never registered; `free` removes exactly
the freed statement from the registry, leaving other registrations; and
the statement exec creates internally is never added to the registry —
exec itself finalizes it before returning or re-raising, leaving the
registry unchanged. -/
theorem prepare_registers_exec_does_not (e : EngineB) (d : DbB) (hwf : EngineB.wf e d) :
    (∀ spec params, (params = true → spec.bindErr = none) →
      (prepareB (.good spec) params e d).1 = .ok e.next ∧
      e.next ∈ (prepareB (.good spec) params e d).2.1.live ∧
      e.next ∈ (prepareB (.good spec) params e d).2.2.registry) ∧
    (∀ spec msg, spec.bindErr = some msg →
      (prepareB (.good spec) true e d).1 = .error msg ∧
      e.next ∈ (prepareB (.good spec) true e d).2.1.live ∧
      e.next ∉ (prepareB (.good spec) true e d).2.2.registry) ∧
    (∀ h, h ∉ (freeB e d h).1.live ∧ h ∉ (freeB e d h).2.registry) ∧
    (∀ k h, k ≠ h → k ∈ d.registry → k ∈ (freeB e d h).2.registry) ∧
    (∀ segs params, (execB segs params e d).2.2.1.registry = d.registry) ∧
    (∀ segs params sn, sn ∈ (execB segs params e d).2.2.2 → sn.handle ∉ sn.registry) := by
  obtain ⟨hbound, hnd, hreg, hrnd⟩ := hwf
  refine ⟨?_, ?_, ?_, ?_, ?_, ?_⟩
  · intro spec params hok
    have hbe : (if params then spec.bindErr else none) = none := by
      cases params with
      | false => rfl
      | true => simpa using hok rfl
    unfold prepareB
    dsimp only
    rw [hbe]
    exact ⟨rfl, List.mem_cons_self _ _, List.mem_cons_self _ _⟩
  · intro spec msg hmsg
    have hbe : (if (true : Bool) then spec.bindErr else none) = some msg := by
      simpa using hmsg
    unfold prepareB
    dsimp only
    rw [hbe]
    exact ⟨rfl, List.mem_cons_self _ _,
      fun hmem => absurd (hreg _ hmem).2 (lt_irrefl _)⟩
  · intro h
    constructor
    · intro hm
      exact absurd ((hnd.mem_erase_iff).mp hm).1 (by simp)
    · intro hm
      exact absurd ((hrnd.mem_erase_iff).mp hm).1 (by simp)
  · intro k h hk hkm
    exact (List.mem_erase_of_ne hk).mpr hkm
  · intro segs params
    unfold execB
    by_cases hopen : d.dbOpen = false
    · rw [if_pos hopen]
    · rw [if_neg hopen]
      exact (execGo_live params segs e d none [] [] ⟨hbound, hnd, hreg, hrnd⟩
        (fun h hh => Option.noConfusion hh)).2
  · intro segs params sn hsn
    unfold execB at hsn
    by_cases hopen : d.dbOpen = false
    · rw [if_pos hopen] at hsn
      exact absurd hsn (List.not_mem_nil sn)
    · rw [if_neg hopen] at hsn
      exact execGo_snaps params segs e d none [] [] ⟨hbound, hnd, hreg, hrnd⟩
        (fun h hh => Option.noConfusion hh)
        (fun sn hs => absurd hs (List.not_mem_nil sn)) sn hsn

/-- Witness for C4 amended over the empty database state: a no-params
prepare registers handle 1, while a prepare whose bind raises leaves
handle 1 live but unregistered. -/
theorem prepare_registers_exec_does_not_witness :
    EngineB.wf {} {} ∧
    1 ∈ (prepareB (.good ⟨["?1"], [], none, none⟩) false {} {}).2.2.registry ∧
    (prepareB (.good ⟨["?1"], [], some "column index out of range", none⟩)
        true {} {}).1 = .error "column index out of range" ∧
    1 ∈ (prepareB (.good ⟨["?1"], [], some "column index out of range", none⟩)
        true {} {}).2.1.live ∧
    1 ∉ (prepareB (.good ⟨["?1"], [], some "column index out of range", none⟩)
        true {} {}).2.2.registry :=
  ⟨⟨by intro h hm; exact absurd hm (List.not_mem_nil h), List.nodup_nil,
     by intro k hk; exact absurd hk (List.not_mem_nil k), List.nodup_nil⟩,
   ((prepare_registers_exec_does_not {} {}
      ⟨by intro h hm; exact absurd hm (List.not_mem_nil h), List.nodup_nil,
       by intro k hk; exact absurd hk (List.not_mem_nil k), List.nodup_nil⟩).1
      ⟨["?1"], [], none, none⟩ false (fun h => Bool.noConfusion h)).2.2,
   ((prepare_registers_exec_does_not {} {}
      ⟨by intro h hm; exact absurd hm (List.not_mem_nil h), List.nodup_nil,
       by intro k hk; exact absurd hk (List.not_mem_nil k), List.nodup_nil⟩).2.1
      ⟨["?1"], [], some "column index out of range", none⟩
      "column index out of range" rfl).1,
   ((prepare_registers_exec_does_not {} {}
      ⟨by intro h hm; exact absurd hm (List.not_mem_nil h), List.nodup_nil,
       by intro k hk; exact absurd hk (List.not_mem_nil k), List.nodup_nil⟩).2.1
      ⟨["?1"], [], some "column index out of range", none⟩
      "column index out of range" rfl).2.1,
   ((prepare_registers_exec_does_not {} {}
      ⟨by intro h hm; exact absurd hm (List.not_mem_nil h), List.nodup_nil,
       by intro k hk; exact absurd hk (List.not_mem_nil k), List.nodup_nil⟩).2.1
      ⟨["?1"], [], some "column index out of range", none⟩
      "column index out of range" rfl).2.2⟩


/-! ### Claim C7: the UDF trampoline never unwinds into the engine -/

/-- Claim C7: for a UDF registered via `create_function`, a throw from
the host callable never propagates past the trampoline: it is converted
into a native error result carrying the thrown value's description; and a
returned object that is neither null nor array-like yields a native error
result whose message is the fixed wrong-API-use text with the value's
description interpolated. -/
theorem udf_trampoline_error_conversion (func : List JSValue → Except JSValue JSValue)
    (args : List ArgCell) :
    (∀ e, func (args.map decodeArg) = .error e →
      wrapped_func func args = .rerror (jsDescribe e)) ∧
    (∀ desc, func (args.map decodeArg) = .ok (.vobj desc) →
      wrapped_func func args = .rerror ("Wrong API use : tried to return a value "
        ++ "of an unknown type (" ++ desc ++ ").")) := by
  constructor
  · intro e he
    unfold wrapped_func
    rw [he]
  · intro desc hd
    unfold wrapped_func
    rw [hd]
    rfl

/-- Witness for C7 with a throwing callable and an object-returning
callable at concrete arguments. -/
theorem udf_trampoline_error_conversion_witness :
    wrapped_func (fun _ => .error (.vstr [98])) [] = .rerror (jsDescribe (.vstr [98])) ∧
    wrapped_func (fun _ => .ok (.vobj "[object Object]")) [] =
      .rerror ("Wrong API use : tried to return a value "
        ++ "of an unknown type ([object Object]).") :=
  ⟨(udf_trampoline_error_conversion (fun _ => .error (.vstr [98])) []).1 (.vstr [98]) rfl,
   (udf_trampoline_error_conversion (fun _ => .ok (.vobj "[object Object]")) []).2
     "[object Object]" rfl⟩


end SqlWasm
